import Mathlib

/-!
# darkrmq connector: dial loop and consumer orchestrator

A shallow embedding of `connector.go`.  Calls into the AMQP client, the
context and the timers are answered by an explicit "world" (an oracle
indexed by the number of the call); every function returns, next to its Go
result, the trace of the calls it made.  Loops that the source does not
bound carry a fuel argument; a run whose result is `none` is one whose fuel
ran out while the loop was still running.
-/

namespace Darkrmq

/-! ## Go values -/

/-- Non-nil values of the Go interface type `error`, as far as the connector
tells them apart. -/
inductive GoError where
  /-- an error value produced outside of this package (dial errors, context errors, ...) -/
  | base (id : Nat)
  /-- the sentinel `amqp.ErrClosed` -/
  | errClosed
  /-- an `error` interface holding a `*amqp.Error` pointer that came out of a
  close-notification channel; the pointer itself may be nil -/
  | amqpPtr (p : Option Nat)
  /-- the value of `errors.WithMessage(cause, msg)` -/
  | withMessage (cause : GoError) (msg : String)
  /-- the value of `errors.Wrap(cause, msg)` -/
  | wrap (cause : GoError) (msg : String)
  deriving DecidableEq, Repr

/-- The Go type `error`: `none` is the nil interface. -/
abbrev Error := Option GoError

/-- Function `errors.WithMessage`: nil stays nil. -/
def errorsWithMessage (err : Error) (msg : String) : Error :=
  match err with
  | none => none
  | some e => some (GoError.withMessage e msg)

/-- Function `errors.Wrap`: nil stays nil. -/
def errorsWrap (err : Error) (msg : String) : Error :=
  match err with
  | none => none
  | some e => some (GoError.wrap e msg)

/-- Largest value of Go `uint` on a platform where it is `bits` wide. -/
def maxUint (bits : Nat) : Nat := 2 ^ bits - 1

/-- Constant `math.MaxUint32`. -/
def mathMaxUint32 : Nat := 4294967295

/-- Statement `i++` on a `uint` of width `bits`. -/
def uintSucc (bits i : Nat) : Nat := (i + 1) % 2 ^ bits

/-! ## Config, events, Connector -/

/-- Struct `Config`: `ReconnectAttempts` is a `uint`, `Wait` a duration. -/
structure Config where
  ReconnectAttempts : Nat
  Wait : Nat
  deriving DecidableEq, Repr

/-- Modelled from the spec: the event record `Retried` (its declaration is not
in the sources at hand): attempt number and error. -/
structure Retried where
  ReconnectAttempt : Nat
  Error : Error
  deriving DecidableEq, Repr

/-- Struct `Connector`.  Listeners are named by numbers; `conn` is the
connection pointer (nil when `none`). -/
structure Connector where
  cfg : Config
  conn : Option Nat
  retries : List Nat
  dials : List Nat
  amqpnotifies : List Nat
  deriving DecidableEq, Repr

/-- Function `NewConnector`. -/
def NewConnector (cfg : Config) : Connector :=
  let cfg1 : Config :=
    if cfg.ReconnectAttempts = 0 then { cfg with ReconnectAttempts := mathMaxUint32 } else cfg
  { cfg := cfg1, conn := none, retries := [], dials := [], amqpnotifies := [] }

/-- Method `AddRetriedListener`. -/
def Connector.AddRetriedListener (c : Connector) (h : Nat) : Connector :=
  { c with retries := c.retries ++ [h] }

/-! ## The retrying dial -/

/-- What the outside world does at one pass of the dial loop: the result of
`amqp.DialConfig` and, when it failed, which case of the `select` fires
(`ctxDone = true`: `<-ctx.Done()`, otherwise the timer). -/
inductive DialOutcome where
  | connected (conn : Nat)
  | failed (err : GoError) (ctxDone : Bool)
  deriving DecidableEq, Repr

/-- One observable step of the connection manager. -/
inductive Action where
  /-- a call of `amqp.DialConfig` -/
  | dial
  /-- a call of `emitRetried`: the handlers are invoked with `r`, in this order -/
  | retried (r : Retried) (handlers : List Nat)
  /-- a completed `time.After(d)` wait -/
  | waited (d : Nat)
  /-- a wait that was cut short by `ctx.Done()` -/
  | waitAborted
  /-- a call of `emitDialed` -/
  | dialed (handlers : List Nat)
  /-- the broadcaster goroutine is started on connection `conn` -/
  | broadcastStarted (conn : Nat)
  /-- `cancel(); wg.Wait()`: the broadcaster is stopped and joined -/
  | broadcastJoined
  /-- a call of `c.conn.Close()` -/
  | connClosed (conn : Nat)
  /-- a call of `emitAMQPNotified` -/
  | amqpNotified (amqpErr : Option Nat) (handlers : List Nat)
  deriving DecidableEq, Repr

/-- Method `emitRetried`: every registered handler is called, in order. -/
def Connector.emitRetried (c : Connector) (r : Retried) : List Action :=
  [Action.retried r c.retries]

/-- Result of one call of `dialWithIt`. -/
structure DialRun where
  /-- field `c.conn` when the call returns -/
  conn : Option Nat
  /-- number of calls of `amqp.DialConfig` -/
  attempts : Nat
  trace : List Action
  /-- the error returned; `none` when the fuel ran out while the loop was still
  running -/
  result : Option Error
  deriving DecidableEq, Repr

/-- Put `n` more failed passes, with trace `pre`, in front of the rest of a
run. -/
def DialRun.after (n : Nat) (pre : List Action) (r : DialRun) : DialRun :=
  { r with attempts := r.attempts + n, trace := pre ++ r.trace }

/-- The `for` loop of `dialWithIt`, entered with loop variable `i`, with
`err` and `c.conn` as left by the previous pass; `k` counts the dial calls
the world has answered so far. -/
def dialLoop (bits : Nat) (c : Connector) (ctxErr : GoError) (world : Nat → DialOutcome) :
    Nat → Nat → Nat → Error → Option Nat → DialRun
  | 0, _, _, _, conn => { conn := conn, attempts := 0, trace := [], result := none }
  | fuel + 1, i, k, err, conn =>
    if i ≤ c.cfg.ReconnectAttempts then
      match world k with
      | DialOutcome.connected cn =>
        { conn := some cn, attempts := 1, trace := [Action.dial], result := some none }
      | DialOutcome.failed e ctxDone =>
        let emitted := Action.dial :: c.emitRetried ⟨i, some e⟩
        if ctxDone then
          { conn := none, attempts := 1, trace := emitted ++ [Action.waitAborted],
            result := some (some ctxErr) }
        else
          DialRun.after 1 (emitted ++ [Action.waited c.cfg.Wait])
            (dialLoop bits c ctxErr world fuel (uintSucc bits i) (k + 1) (some e) none)
    else
      { conn := conn, attempts := 0, trace := [],
        result := some (errorsWithMessage err "maximum attempts exceeded") }

/-- Method `dialWithIt`; `k` is the number of dial calls answered before. -/
def dialWithIt (bits : Nat) (c : Connector) (ctxErr : GoError) (world : Nat → DialOutcome)
    (fuel k : Nat) : DialRun :=
  dialLoop bits c ctxErr world fuel 1 k none c.conn

/-- The `Retried` events of a trace, in order. -/
def retriedEvents : List Action → List Retried
  | [] => []
  | Action.retried r _ :: t => r :: retriedEvents t
  | _ :: t => retriedEvents t

/-- The completed inter-attempt waits of a trace, in order. -/
def waitsOf : List Action → List Nat
  | [] => []
  | Action.waited d :: t => d :: waitsOf t
  | _ :: t => waitsOf t

/-- The number of dial calls of a trace. -/
def dialsOf : List Action → Nat
  | [] => 0
  | Action.dial :: t => dialsOf t + 1
  | _ :: t => dialsOf t

/-- A dial target that refuses every attempt, attempt `k` (counted from 0) with
error `errs k`, under a context that is never cancelled. -/
def refusing (errs : Nat → GoError) : Nat → DialOutcome :=
  fun k => DialOutcome.failed (errs k) false

/-! ## DialConfig -/

/-- What happens while a connection is live: which case of the `select` in
`DialConfig` fires.  `ctxDone closeErr`: the context is done and
`c.conn.Close()` then returns `closeErr`; `closed amqpErr`: the
close-notification channel delivers `amqpErr`. -/
inductive LiveOutcome where
  | ctxDone (closeErr : Error)
  | closed (amqpErr : Option Nat)
  deriving DecidableEq, Repr

/-- The outside world of one `DialConfig` call. -/
structure World where
  /-- the value of `ctx.Err()` once the context is done -/
  ctxErr : GoError
  /-- answer to the `k`-th dial call of the whole run (from 0) -/
  attempt : Nat → DialOutcome
  /-- what ends the live phase of the `n`-th dial cycle (from 0) -/
  live : Nat → LiveOutcome

/-- How a `DialConfig` call ends: it returns an error value, or it dereferences
the nil connection (`c.conn.NotifyClose` after a dial cycle that made no
attempt at all). -/
inductive Exit where
  | returned (err : Error)
  | nilDeref
  deriving DecidableEq, Repr

/-- One dial cycle of `DialConfig`: the run of `dialWithIt` and what followed
it in the same pass of the outer loop. -/
structure Cycle where
  dial : DialRun
  live : List Action
  deriving DecidableEq, Repr

/-- Result of a `DialConfig` call: the cycles in order and the way it ended;
`exit = none` when the fuel ran out while the call was still running. -/
structure ConfigRun where
  cycles : List Cycle
  exit : Option Exit
  deriving DecidableEq, Repr

/-- Put a finished cycle in front of the rest of a run. -/
def ConfigRun.afterCycle (cy : Cycle) (r : ConfigRun) : ConfigRun :=
  { r with cycles := cy :: r.cycles }

/-- Method `DialConfig`: the outer `for` loop, entered for cycle number `n`
after `k` dial calls.  The fuel bounds both the number of cycles and the
passes of each inner dial loop. -/
def DialConfig (bits : Nat) (w : World) : Nat → Connector → Nat → Nat → ConfigRun
  | 0, _, _, _ => { cycles := [], exit := none }
  | fuel + 1, c, n, k =>
    let run := dialWithIt bits c w.ctxErr w.attempt (fuel + 1) k
    match run.result with
    | none => { cycles := [{ dial := run, live := [] }], exit := none }
    | some (some e) =>
      { cycles := [{ dial := run, live := [] }],
        exit := some (Exit.returned (errorsWithMessage (some e) "failed to dial")) }
    | some none =>
      match run.conn with
      | none => { cycles := [{ dial := run, live := [] }], exit := some Exit.nilDeref }
      | some cn =>
        let started := [Action.broadcastStarted cn, Action.dialed c.dials]
        match w.live n with
        | LiveOutcome.ctxDone closeErr =>
          let acts := started ++ [Action.broadcastJoined, Action.connClosed cn]
          if closeErr ≠ none ∧ closeErr ≠ some GoError.errClosed then
            { cycles := [{ dial := run, live := acts }],
              exit := some (Exit.returned
                (errorsWithMessage closeErr "failed to close rabbitmq connection")) }
          else
            { cycles := [{ dial := run, live := acts }],
              exit := some (Exit.returned (some w.ctxErr)) }
        | LiveOutcome.closed amqpErr =>
          let acts := started ++ [Action.broadcastJoined,
            Action.amqpNotified amqpErr c.amqpnotifies]
          ConfigRun.afterCycle { dial := run, live := acts }
            (DialConfig bits w fuel { c with conn := some cn } (n + 1) (k + run.attempts))

/-- Method `Dial`: `DialConfig` with the default heartbeat and locale, which
the world absorbs; the first cycle, no dial call answered yet. -/
def Dial (bits : Nat) (w : World) (fuel : Nat) (c : Connector) : ConfigRun :=
  DialConfig bits w fuel c 0 0

/-! ## Reference traces -/

/-- The trace of `n` consecutive failed passes of the dial loop, each followed
by a completed wait: loop variable from `i`, dial calls from `k`, the `j`-th
dial call failing with `errs j`. -/
def failedPasses (c : Connector) (errs : Nat → GoError) : Nat → Nat → Nat → List Action
  | 0, _, _ => []
  | n + 1, i, k =>
    Action.dial :: Action.retried ⟨i, some (errs k)⟩ c.retries :: Action.waited c.cfg.Wait ::
      failedPasses c errs n (i + 1) (k + 1)

/-- The error variable of the dial loop after the passes that emitted `evs`,
when it held `err` before them. -/
def lastErrOf (err : Error) (evs : List Retried) : Error :=
  match evs.getLast? with
  | none => err
  | some r => r.Error

/-! ## Channel acquisition -/

/-- Result pair of `conn.Channel()` and of `Connector.Channel`: a channel, or an
error with a nil channel. -/
inductive ChannelResult where
  | opened (ch : Nat)
  | failed (err : GoError)
  deriving DecidableEq, Repr

/-- Which case of the `select` in `Connector.Channel` fires: the context is
done (with `ctx.Err()`), or the broadcaster hands over a connection, on which
`conn.Channel()` then gives `res`. -/
inductive HandOff where
  | ctxDone (err : GoError)
  | conn (res : ChannelResult)
  deriving DecidableEq, Repr

/-- Method `Connector.Channel`. -/
def Connector.Channel (h : HandOff) : ChannelResult :=
  match h with
  | HandOff.ctxDone err => ChannelResult.failed err
  | HandOff.conn res => res

/-! ## The consumer orchestrator -/

/-- Struct `consumerChannel`; `Channel` is a pointer, nil when `none`. -/
structure consumerChannel where
  Channel : Option Nat
  ConsumerTag : String
  deriving DecidableEq, Repr

/-- The ready channel handed to `Consume`: the one the caller put in the task,
or one made by the consume goroutine. -/
inductive ReadySignal where
  | caller
  | fresh
  deriving DecidableEq, Repr

/-- Constant `waitAfterConnClosed` (3 seconds, in nanoseconds). -/
def waitAfterConnClosed : Nat := 3 * 1000000000

/-- One call made by `startConsumers` or by one of its goroutines. -/
inductive Call where
  /-- a completed `time.After(d)` wait -/
  | waited (d : Nat)
  /-- a wait cut short by `task.Ctx.Done()` -/
  | waitAborted
  /-- a call of `c.Channel` with its result -/
  | channel (res : ChannelResult)
  /-- a call of `task.Consumer.Declare` on channel `ch` -/
  | declare (ch : Nat)
  /-- a call of `Close` on channel `ch` -/
  | close (ch : Nat)
  /-- a call of `task.Consumer.GetTag` -/
  | getTag
  /-- a call of `NotifyClose` on channel `ch` -/
  | notifyClose (ch : Nat)
  /-- the statement `g.Go` that starts the consume goroutine of a worker -/
  | goConsume (worker : Nat)
  /-- the statement `g.Go` that starts the watcher goroutine of a worker -/
  | goWatch (worker : Nat)
  /-- a call of `cancel`, the cancel function of the generation context -/
  | cancelCtx
  /-- a call of `c.conn.Close()` inside `ReopenConn` -/
  | connClose
  /-- a call of `time.Sleep(d)` -/
  | slept (d : Nat)
  /-- a call of `log.Println` -/
  | logPrintln (err : GoError)
  /-- a call of `task.Consumer.Consume` on channel `ch` -/
  | consume (ch : Nat) (ready : ReadySignal)
  /-- a call of `emitAMQPNotified` -/
  | amqpNotified (amqpErr : Option Nat)
  /-- a call of `Channel.Cancel(tag, false)` on channel `ch` -/
  | cancelConsumer (ch : Nat) (tag : String)
  deriving DecidableEq, Repr

/-- Method `ReopenConn`, given the result of `c.conn.Close()`. -/
def ReopenConn (closeErr : Error) : List Call × Error :=
  match closeErr with
  | some e => ([Call.connClose], some e)
  | none => ([Call.connClose, Call.slept waitAfterConnClosed], none)

/-- The variables of `startConsumers` that the main loop shares with the
goroutine waiting for `task.Stop` and with the consume goroutines. -/
structure Loop where
  lastErr : Error
  reconnectConsumers : Bool
  consumerChannels : List consumerChannel
  readyOnce : Bool
  deriving DecidableEq, Repr

/-- The state in which `startConsumers` enters its loop. -/
def Loop.init : Loop :=
  { lastErr := none, reconnectConsumers := true, consumerChannels := [], readyOnce := false }

/-- The `for ... range consumerChannels` loop of the Stop goroutine; `cancel ch`
is the result of `Channel.Cancel` on channel `ch`. -/
def cancelAll (cancel : Nat → Error) : List consumerChannel → Loop → Loop × List Call
  | [], st => (st, [])
  | cc :: rest, st =>
    match cc.Channel with
    | none => cancelAll cancel rest st
    | some ch =>
      let err := cancel ch
      let st1 : Loop :=
        if err ≠ none then
          { st with lastErr := errorsWithMessage err "failed to cancel consumer" }
        else st
      let out := cancelAll cancel rest st1
      (out.1, Call.cancelConsumer ch cc.ConsumerTag :: out.2)

/-- The goroutine that waits for `task.Stop`, from the moment the signal is
received, run on the worker list as it is at that moment. -/
def stopHandler (cancel : Nat → Error) (st : Loop) : Loop × List Call :=
  cancelAll cancel st.consumerChannels { st with reconnectConsumers := false }

/-- The points of a pass of the main loop at which the Stop goroutine can run
(it is taken to run without interruption). -/
inductive StopPoint where
  /-- before the loop condition is evaluated -/
  | beforeCheck
  /-- after the loop condition, before `lastErr` is read -/
  | afterCheck
  /-- after `lastErr` was read, before the worker list is made anew -/
  | beforeTrack
  /-- after `j` workers of this pass were entered in the worker list -/
  | afterTracked (j : Nat)
  deriving DecidableEq, Repr

/-- Which case of the `select` of a watcher goroutine fires: the generation
context is done (with `consumeCtx.Err()`), or the close-notification channel
delivers a `*amqp.Error` pointer (nil when the channel was closed in order). -/
inductive Wake where
  | ctxDone (err : GoError)
  | closeNotified (amqpErr : Option Nat)
  deriving DecidableEq, Repr

/-- What the outside world does for one worker of one pass. -/
structure WorkerWorld where
  /-- the `select` of `c.Channel(consumeCtx)` -/
  acquire : HandOff
  /-- the result of `checkErrorAboutIDSpace` on the acquisition error (the
  function is not in the sources at hand) -/
  idSpace : Bool
  /-- the result of `c.conn.Close()` in `ReopenConn` -/
  reopenClose : Error
  /-- the result of `task.Consumer.GetTag()` -/
  tag : String
  /-- the result of `task.Consumer.Consume` -/
  consume : Error
  /-- the `select` of the watcher -/
  wake : Wake
  /-- whether the consume goroutine reaches its `once.Do` before the watcher -/
  consumeClosesFirst : Bool
  /-- the result of `consumeChannel.Close()` -/
  close : Error

/-- What the outside world does during one pass of the main loop. -/
structure PassWorld where
  /-- the point of this pass at which the Stop signal is received, if any -/
  stop : Option StopPoint
  /-- the result of `Channel.Cancel` on a channel -/
  cancelConsumer : Nat → Error
  /-- whether `task.Ctx.Done()` is closed when `contextDone(task.Ctx)` looks -/
  ctxDone : Bool
  /-- whether `task.Ctx.Done()` wins the `select` of the wait -/
  waitCtxDone : Bool
  /-- the `select` of `c.Channel(task.Ctx)` for the declare channel -/
  declAcquire : HandOff
  /-- the result of `task.Consumer.Declare` -/
  declare : Error
  /-- the result of `declareChannel.Close()` -/
  declClose : Error
  worker : Nat → WorkerWorld
  /-- the order in which the goroutines of the group finish, as positions in
  the order in which they were started -/
  order : List Nat

/-- The outside world of one `startConsumers` call. -/
structure ConsumersWorld where
  /-- the value of `task.Ctx.Err()` once the context is done -/
  ctxErr : GoError
  pass : Nat → PassWorld

/-- Function `contextDone`: the `select` with a `default` case returns whether
the channel `ctx.Done()` is closed at that moment. -/
def contextDone (doneClosed : Bool) : Bool :=
  match doneClosed with
  | true => true
  | false => false

/-- The Stop goroutine runs at point `pt` when the world says so and it has not
run before (it alone clears `reconnectConsumers`). -/
def maybeStop (pw : PassWorld) (pt : StopPoint) (st : Loop) : Loop × Option (List Call) :=
  if st.reconnectConsumers = true ∧ pw.stop = some pt then
    let out := stopHandler pw.cancelConsumer st
    (out.1, some out.2)
  else (st, none)

/-- Method `sync.Once.Do` around `closeErr = consumeChannel.Close()`: the guard
afterwards, the calls made and the value of `closeErr`. -/
def closeGuarded (once : Bool) (ch : Nat) (closeRes : Error) : Bool × List Call × Error :=
  if once then (true, [], none) else (true, [Call.close ch], closeRes)

/-- The test `closeErr != nil && closeErr != amqp.ErrClosed` and the two
returns behind it. -/
def closeErrOr (closeErr : Error) (otherwise : Error) : Error :=
  if closeErr ≠ none ∧ closeErr ≠ some GoError.errClosed then
    errorsWrap closeErr "failed to close amqp channel"
  else otherwise

/-- A finished goroutine of a worker: the close guard it leaves, its calls and
the error it returns to the group. -/
structure TaskEnd where
  once : Bool
  calls : List Call
  result : Error
  deriving DecidableEq, Repr

/-- The consume goroutine of a worker; `once` is the close guard when it
reaches `once.Do`. -/
def consumeTask (ww : WorkerWorld) (ch : Nat) (ready : ReadySignal) (once : Bool) : TaskEnd :=
  match ww.consume with
  | some e =>
    { once := once, calls := [Call.consume ch ready, Call.cancelCtx],
      result := errorsWrap (some e) "failed to consume" }
  | none =>
    let g := closeGuarded once ch ww.close
    { once := g.1, calls := Call.consume ch ready :: g.2.1 ++ [Call.cancelCtx],
      result := closeErrOr g.2.2 none }

/-- The watcher goroutine of a worker. -/
def watcherTask (ww : WorkerWorld) (ch : Nat) (once : Bool) : TaskEnd :=
  let woke : List Call × Error :=
    match ww.wake with
    | Wake.ctxDone e => ([], some e)
    | Wake.closeNotified p => ([Call.amqpNotified p], some (GoError.amqpPtr p))
  let g := closeGuarded once ch ww.close
  { once := g.1, calls := woke.1 ++ g.2.1 ++ [Call.cancelCtx],
    result := closeErrOr g.2.2 woke.2 }

/-- The two goroutines of one worker, finished. -/
structure WorkerRun where
  ch : Nat
  consumeCalls : List Call
  watchCalls : List Call
  consumeResult : Error
  watchResult : Error
  deriving DecidableEq, Repr

/-- The two goroutines of a worker, with the shared close guard passed from the
one that reaches `once.Do` first to the other. -/
def runWorker (ww : WorkerWorld) (ch : Nat) (ready : ReadySignal) : WorkerRun :=
  if ww.consumeClosesFirst then
    let a := consumeTask ww ch ready false
    let b := watcherTask ww ch a.once
    { ch := ch, consumeCalls := a.calls, watchCalls := b.calls,
      consumeResult := a.result, watchResult := b.result }
  else
    let b := watcherTask ww ch false
    let a := consumeTask ww ch ready b.once
    { ch := ch, consumeCalls := a.calls, watchCalls := b.calls,
      consumeResult := a.result, watchResult := b.result }

/-- A stretch of a pass: the shared variables after it, the calls of the Stop
goroutine if it ran, the calls of the main goroutine and the workers started. -/
structure Part where
  st : Loop
  stopCalls : Option (List Call)
  calls : List Call
  tasks : List WorkerRun
  deriving DecidableEq, Repr

/-- The loop `for i := 0; i < task.Count; i++` that starts the workers, with
`n` passes left and loop variable `i`.  The consume goroutines read and set
`readyOnce` in the order in which they were started. -/
def spawnWorkers (pw : PassWorld) : Nat → Nat → Loop → Part
  | 0, _, st => { st := st, stopCalls := none, calls := [], tasks := [] }
  | n + 1, i, st0 =>
    let s := maybeStop pw (StopPoint.afterTracked i) st0
    let st := s.1
    let ww := pw.worker i
    match Connector.Channel ww.acquire with
    | ChannelResult.failed e =>
      let reopened : List Call :=
        if ww.idSpace then
          let ro := ReopenConn ww.reopenClose
          match ro.2 with
          | some e1 => ro.1 ++ [Call.logPrintln e1]
          | none => ro.1
        else []
      { st := st, stopCalls := s.2,
        calls := Call.channel (ChannelResult.failed e) :: Call.cancelCtx :: reopened,
        tasks := [] }
    | ChannelResult.opened ch =>
      let st1 : Loop :=
        { st with consumerChannels := st.consumerChannels.set i ⟨some ch, ww.tag⟩ }
      let ready := if st1.readyOnce then ReadySignal.fresh else ReadySignal.caller
      let st2 : Loop := { st1 with readyOnce := true }
      let rest := spawnWorkers pw n (i + 1) st2
      { st := rest.st, stopCalls := s.2.or rest.stopCalls,
        calls := Call.channel (ChannelResult.opened ch) :: Call.getTag :: Call.notifyClose ch ::
          Call.goConsume i :: Call.goWatch i :: rest.calls,
        tasks := runWorker ww ch ready :: rest.tasks }

/-- The errors returned by the goroutines of the group, in the order in which
the goroutines were started. -/
def taskResults : List WorkerRun → List Error
  | [] => []
  | t :: rest => t.consumeResult :: t.watchResult :: taskResults rest

/-- Method `errgroup.Group.Wait`: the first non-nil error in the order in which
the goroutines finished. -/
def gWait (results : List Error) (order : List Nat) : Error :=
  ((order.filterMap (fun j => (results.get? j).join)) ++ results.filterMap id).head?

/-- How a pass of the main loop ends. -/
inductive PassEnd where
  | returned (err : Error)
  | continues
  deriving DecidableEq, Repr

/-- One pass of the main loop of `startConsumers`. -/
structure PassRun where
  st : Loop
  stopCalls : Option (List Call)
  calls : List Call
  tasks : List WorkerRun
  outcome : PassEnd
  deriving DecidableEq, Repr

/-- The body of the loop `for reconnectConsumers` of `startConsumers`, together
with the evaluation of the loop condition that precedes it; `count` is
`task.Count`. -/
def pass (cfg : Config) (ctxErr : GoError) (count : Nat) (pw : PassWorld) (st0 : Loop) :
    PassRun :=
  let s1 := maybeStop pw StopPoint.beforeCheck st0
  if s1.1.reconnectConsumers = false then
    { st := s1.1, stopCalls := s1.2, calls := [], tasks := [], outcome := PassEnd.returned none }
  else
    let s2 := maybeStop pw StopPoint.afterCheck s1.1
    if contextDone pw.ctxDone then
      { st := s2.1, stopCalls := s2.2, calls := [], tasks := [],
        outcome := PassEnd.returned s2.1.lastErr }
    else if s2.1.lastErr ≠ none ∧ pw.waitCtxDone = true then
      { st := s2.1, stopCalls := s2.2, calls := [Call.waitAborted], tasks := [],
        outcome := PassEnd.returned (some ctxErr) }
    else
      let waitCalls : List Call := if s2.1.lastErr ≠ none then [Call.waited cfg.Wait] else []
      let s3 := maybeStop pw StopPoint.beforeTrack s2.1
      let sc := s2.2.or s3.2
      match Connector.Channel pw.declAcquire with
      | ChannelResult.failed e =>
        { st := { s3.1 with lastErr := errorsWithMessage (some e) "failed to get channel" },
          stopCalls := sc, calls := waitCalls ++ [Call.channel (ChannelResult.failed e)],
          tasks := [], outcome := PassEnd.continues }
      | ChannelResult.opened d =>
        match pw.declare with
        | some e =>
          { st := { s3.1 with
                    lastErr := errorsWithMessage (some e) "failed to declare consumer" },
            stopCalls := sc,
            calls := waitCalls ++ [Call.channel (ChannelResult.opened d), Call.declare d],
            tasks := [], outcome := PassEnd.continues }
        | none =>
          match pw.declClose with
          | some e =>
            { st := { s3.1 with
                      lastErr := errorsWithMessage (some e) "failed to close declareChannel" },
              stopCalls := sc,
              calls := waitCalls ++
                [Call.channel (ChannelResult.opened d), Call.declare d, Call.close d],
              tasks := [], outcome := PassEnd.continues }
          | none =>
            let st4 : Loop :=
              { s3.1 with consumerChannels := List.replicate count ⟨none, ""⟩ }
            let part := spawnWorkers pw count 0 st4
            let s5 := maybeStop pw (StopPoint.afterTracked count) part.st
            { st := { s5.1 with lastErr := gWait (taskResults part.tasks) pw.order },
              stopCalls := (sc.or part.stopCalls).or s5.2,
              calls := waitCalls ++
                [Call.channel (ChannelResult.opened d), Call.declare d, Call.close d] ++
                part.calls ++ [Call.cancelCtx],
              tasks := part.tasks, outcome := PassEnd.continues }

/-- A run of `startConsumers`: its passes in order and the error it returned;
`result = none` when the fuel ran out while the loop was still running. -/
structure ConsumersRun where
  passes : List PassRun
  result : Option Error
  deriving DecidableEq, Repr

/-- The main loop of `startConsumers`, entered for pass number `n`. -/
def startConsumersLoop (cfg : Config) (w : ConsumersWorld) (count : Nat) :
    Nat → Nat → Loop → ConsumersRun
  | 0, _, _ => { passes := [], result := none }
  | fuel + 1, n, st =>
    let p := pass cfg w.ctxErr count (w.pass n) st
    match p.outcome with
    | PassEnd.returned err => { passes := [p], result := some err }
    | PassEnd.continues =>
      let r := startConsumersLoop cfg w count fuel (n + 1) p.st
      { passes := p :: r.passes, result := r.result }

/-- Method `startConsumers` of a connector with configuration `cfg`, for a task
with `Count = count` (a `Count` below zero, on which `make` panics, is left
out). -/
def startConsumers (cfg : Config) (w : ConsumersWorld) (count : Nat) (fuel : Nat) :
    ConsumersRun :=
  startConsumersLoop cfg w count fuel 0 Loop.init

/-! ## Reading the calls of a pass -/

/-- The channels on which `Consume` is called, in order. -/
def consumedOn : List Call → List Nat
  | [] => []
  | Call.consume ch _ :: t => ch :: consumedOn t
  | _ :: t => consumedOn t

/-- The channels on which `Declare` is called, in order. -/
def declaredOn : List Call → List Nat
  | [] => []
  | Call.declare ch :: t => ch :: declaredOn t
  | _ :: t => declaredOn t

/-- The completed `time.After` waits among the calls, in order. -/
def waitedIn : List Call → List Nat
  | [] => []
  | Call.waited d :: t => d :: waitedIn t
  | _ :: t => waitedIn t

/-- The channels on which `Close` is called, in order. -/
def closedOn : List Call → List Nat
  | [] => []
  | Call.close ch :: t => ch :: closedOn t
  | _ :: t => closedOn t

/-- The calls with which the main goroutine starts worker `j` on channel `ch`. -/
def workerStart (j ch : Nat) : List Call :=
  [Call.channel (ChannelResult.opened ch), Call.getTag, Call.notifyClose ch,
   Call.goConsume j, Call.goWatch j]

/-- All `Consume` calls made by the goroutines of the workers, worker by
worker. -/
def consumeCallsOf (tasks : List WorkerRun) : List Nat :=
  tasks.flatMap (fun t => consumedOn (t.consumeCalls ++ t.watchCalls))

/-- All `Declare` calls made by the goroutines of the workers. -/
def declareCallsOf (tasks : List WorkerRun) : List Nat :=
  tasks.flatMap (fun t => declaredOn (t.consumeCalls ++ t.watchCalls))

/-- A worker for which everything succeeds: worker `j` gets channel `10 + j`,
`Consume` returns nil at once, the consume goroutine closes the channel and
the watcher then finds the close-notification channel closed. -/
def sampleWorker (j : Nat) : WorkerWorld :=
  { acquire := HandOff.conn (ChannelResult.opened (10 + j)), idSpace := false,
    reopenClose := none, tag := "sample", consume := none,
    wake := Wake.closeNotified none, consumeClosesFirst := true, close := none }

/-- A pass in which everything succeeds, with the Stop signal received at
`stop`, if at all. -/
def samplePass (stop : Option StopPoint) : PassWorld :=
  { stop := stop, cancelConsumer := fun _ => none, ctxDone := false, waitCtxDone := false,
    declAcquire := HandOff.conn (ChannelResult.opened 1), declare := none, declClose := none,
    worker := sampleWorker, order := [] }

/-- A world in which everything succeeds; the Stop signal, if any, is received
in the first pass. -/
def sampleWorld (stop : Option StopPoint) : ConsumersWorld :=
  { ctxErr := GoError.base 0, pass := fun n => samplePass (if n = 0 then stop else none) }

/-- A world whose context is done before the first pass. -/
def cancelledWorld : ConsumersWorld :=
  { ctxErr := GoError.base 0, pass := fun _ => { samplePass none with ctxDone := true } }

/-- A world in which `Declare` fails in the first pass and the context is done
when the second pass begins. -/
def declareFailsWorld : ConsumersWorld :=
  { ctxErr := GoError.base 0,
    pass := fun n =>
      if n = 0 then { samplePass none with declare := some (GoError.base 7) }
      else { samplePass none with ctxDone := true } }

/-- A world in which `Declare` fails in the first pass and the context is done
during the wait of the second pass. -/
def cancelledInWaitWorld : ConsumersWorld :=
  { ctxErr := GoError.base 0,
    pass := fun n =>
      if n = 0 then { samplePass none with declare := some (GoError.base 7) }
      else { samplePass none with waitCtxDone := true } }

/-- A world in which every `Consume` call fails and the watcher goroutines then
find the generation context done. -/
def failingConsumeWorld : ConsumersWorld :=
  { ctxErr := GoError.base 0,
    pass := fun _ =>
      { samplePass none with
        worker := fun j =>
          { sampleWorker j with
            consume := some (GoError.base 9), wake := Wake.ctxDone (GoError.base 8) } } }

end Darkrmq

/-! # Theorems -/

namespace Darkrmq

theorem uintSucc_of_lt {bits i : Nat} (h : i + 1 < 2 ^ bits) : uintSucc bits i = i + 1 :=
  Nat.mod_eq_of_lt h

theorem uintSucc_lt (bits i : Nat) : uintSucc bits i < 2 ^ bits :=
  Nat.mod_lt _ (Nat.pos_pow_of_pos _ (by decide))

theorem retriedEvents_append (a b : List Action) :
    retriedEvents (a ++ b) = retriedEvents a ++ retriedEvents b := by
  induction a with
  | nil => rfl
  | cons x t ih => cases x <;> simp [retriedEvents, ih]

theorem dialsOf_append (a b : List Action) : dialsOf (a ++ b) = dialsOf a + dialsOf b := by
  induction a with
  | nil => simp [dialsOf]
  | cons x t ih => cases x <;> simp [dialsOf, ih, Nat.add_right_comm]

theorem retriedEvents_failedPasses (c : Connector) (errs : Nat → GoError) (n i k : Nat) :
    retriedEvents (failedPasses c errs n i k) =
      (List.range n).map (fun j => (⟨i + j, some (errs (k + j))⟩ : Retried)) := by
  induction n generalizing i k with
  | zero => rfl
  | succ n ih =>
    rw [List.range_succ_eq_map, List.map_cons, List.map_map]
    simp only [failedPasses, retriedEvents, ih, Nat.add_zero]
    congr 1
    apply List.map_congr_left
    intro j _
    show (⟨i + 1 + j, some (errs (k + 1 + j))⟩ : Retried) = ⟨i + (j + 1), some (errs (k + (j + 1)))⟩
    rw [Nat.add_assoc, Nat.add_assoc, Nat.add_comm 1 j]

theorem waitsOf_failedPasses (c : Connector) (errs : Nat → GoError) (n i k : Nat) :
    waitsOf (failedPasses c errs n i k) = List.replicate n c.cfg.Wait := by
  induction n generalizing i k with
  | zero => rfl
  | succ n ih => simp [failedPasses, waitsOf, ih, List.replicate_succ]

theorem dialsOf_failedPasses (c : Connector) (errs : Nat → GoError) (n i k : Nat) :
    dialsOf (failedPasses c errs n i k) = n := by
  induction n generalizing i k with
  | zero => rfl
  | succ n ih => simp [failedPasses, dialsOf, ih]

theorem getLast?_failedPasses (c : Connector) (errs : Nat → GoError) (n i k : Nat) :
    (failedPasses c errs (n + 1) i k).getLast? = some (Action.waited c.cfg.Wait) := by
  induction n generalizing i k with
  | zero => rfl
  | succ n ih =>
    have h := ih (i + 1) (k + 1)
    rw [failedPasses] at h ⊢
    simp only [List.getLast?_cons_cons] at h ⊢
    exact h

theorem DialRun.after_zero (r : DialRun) : DialRun.after 0 [] r = r := by
  cases r
  rfl

theorem DialRun.after_after (n m : Nat) (p q : List Action) (r : DialRun) :
    DialRun.after n p (DialRun.after m q r) = DialRun.after (m + n) (p ++ q) r := by
  simp [DialRun.after, Nat.add_assoc]

/-- After `n` failed passes whose waits all complete, the dial loop goes on
from loop variable `i + n` as if started there. -/
theorem dialLoop_failedPasses (bits : Nat) (c : Connector) (ctxErr : GoError)
    (world : Nat → DialOutcome) (errs : Nat → GoError) (fuel : Nat) :
    ∀ (n i k : Nat) (err : Error) (conn : Option Nat),
      (∀ j, j < n → world (k + j) = DialOutcome.failed (errs (k + j)) false) →
      i + n ≤ c.cfg.ReconnectAttempts + 1 → i + n < 2 ^ bits →
      dialLoop bits c ctxErr world (fuel + n) i k err conn =
        DialRun.after n (failedPasses c errs n i k)
          (dialLoop bits c ctxErr world fuel (i + n) (k + n)
            (if n = 0 then err else some (errs (k + n - 1)))
            (if n = 0 then conn else none)) := by
  intro n
  induction n with
  | zero =>
    intro i k err conn _ _ _
    simp only [Nat.add_zero, if_true, failedPasses]
    exact (DialRun.after_zero _).symm
  | succ n ih =>
    intro i k err conn hw hN hb
    have h0 : world k = DialOutcome.failed (errs k) false := by
      have := hw 0 (Nat.succ_pos n)
      simpa using this
    have hi : i ≤ c.cfg.ReconnectAttempts := by omega
    have hs : uintSucc bits i = i + 1 := uintSucc_of_lt (by omega)
    have hfuel : fuel + (n + 1) = (fuel + n) + 1 := rfl
    rw [hfuel, dialLoop]
    simp only [hi, if_true, h0, hs, Bool.false_eq_true, if_false]
    rw [ih (i + 1) (k + 1) (some (errs k)) none
      (fun j hj => by
        have := hw (j + 1) (by omega)
        rw [show k + (j + 1) = k + 1 + j by omega] at this
        exact this)
      (by omega) (by omega)]
    have e1 : i + 1 + n = i + (n + 1) := by omega
    have e2 : k + 1 + n = k + (n + 1) := by omega
    have e3 : (if n = 0 then some (errs k) else some (errs (k + 1 + n - 1))) =
        some (errs (k + (n + 1) - 1)) := by
      by_cases hn : n = 0
      · subst hn; simp
      · simp only [hn, if_false]
        rw [e2]
    have e4 : (if n = 0 then (none : Option Nat) else none) = none := by split <;> rfl
    rw [e3, e4, e1, e2, DialRun.after_after]
    simp only [Nat.succ_ne_zero, if_false]
    rfl

theorem getLast?_append_some {α : Type} (l t : List α) (a : α) (h : t.getLast? = some a) :
    (l ++ t).getLast? = some a := by
  simp [List.getLast?_append, h]

theorem lastErrOf_cons (err : Error) (r : Retried) (evs : List Retried) :
    lastErrOf err (r :: evs) = lastErrOf r.Error evs := by
  cases evs with
  | nil => rfl
  | cons x t =>
    simp only [lastErrOf, List.getLast?_cons_cons]
    cases h : (x :: t).getLast? with
    | none => simp at h
    | some y => rfl

/-- A permanently refusing target under a budget below the largest `uint`:
the complete run of `dialWithIt`. -/
theorem dialWithIt_refusing (bits : Nat) (c : Connector) (ctxErr : GoError)
    (errs : Nat → GoError) (fuel k : Nat)
    (hN : 1 ≤ c.cfg.ReconnectAttempts) (hmax : c.cfg.ReconnectAttempts < maxUint bits)
    (hfuel : c.cfg.ReconnectAttempts < fuel) :
    dialWithIt bits c ctxErr (refusing errs) fuel k =
      { conn := none, attempts := c.cfg.ReconnectAttempts,
        trace := failedPasses c errs c.cfg.ReconnectAttempts 1 k,
        result := some (some (GoError.withMessage (errs (k + c.cfg.ReconnectAttempts - 1))
          "maximum attempts exceeded")) } := by
  unfold maxUint at hmax
  obtain ⟨f, rfl⟩ : ∃ f, fuel = (f + 1) + c.cfg.ReconnectAttempts :=
    ⟨fuel - c.cfg.ReconnectAttempts - 1, by omega⟩
  have hne : ¬ c.cfg.ReconnectAttempts = 0 := by omega
  rw [dialWithIt, dialLoop_failedPasses bits c ctxErr (refusing errs) errs (f + 1)
    c.cfg.ReconnectAttempts 1 k none c.conn (fun j _ => rfl) (by omega) (by omega)]
  rw [dialLoop]
  have hgt : ¬ (1 + c.cfg.ReconnectAttempts ≤ c.cfg.ReconnectAttempts) := by omega
  simp [hgt, hne, errorsWithMessage, DialRun.after]

/-- With the budget at the largest `uint` the loop condition never fails. -/
theorem dialLoop_never_exits (bits : Nat) (c : Connector) (ctxErr : GoError)
    (errs : Nat → GoError) (hN : c.cfg.ReconnectAttempts = maxUint bits) :
    ∀ (fuel i k : Nat) (err : Error) (conn : Option Nat), i < 2 ^ bits →
      (dialLoop bits c ctxErr (refusing errs) fuel i k err conn).result = none := by
  intro fuel
  induction fuel with
  | zero => intro i k err conn _; rfl
  | succ fuel ih =>
    intro i k err conn hi
    have hle : i ≤ c.cfg.ReconnectAttempts := by rw [hN]; unfold maxUint; omega
    rw [dialLoop]
    simp only [hle, if_true, refusing, Bool.false_eq_true, if_false, DialRun.after]
    exact ih _ _ _ _ (uintSucc_lt bits i)

/-- Every state in which the dial loop can be found when its fuel is used up or
it has returned: still running, connected, cancelled during a wait, or out of
budget after the passes that were left. -/
theorem dialLoop_outcome (bits : Nat) (c : Connector) (ctxErr : GoError)
    (world : Nat → DialOutcome) :
    ∀ (fuel i k : Nat) (err : Error) (conn : Option Nat),
      i ≤ c.cfg.ReconnectAttempts + 1 → i < 2 ^ bits →
      (dialLoop bits c ctxErr world fuel i k err conn).result = none ∨
      ((dialLoop bits c ctxErr world fuel i k err conn).result = some none ∧
        (dialLoop bits c ctxErr world fuel i k err conn).conn ≠ none ∧
        (dialLoop bits c ctxErr world fuel i k err conn).trace.getLast? = some Action.dial) ∨
      ((dialLoop bits c ctxErr world fuel i k err conn).result = some (some ctxErr) ∧
        (dialLoop bits c ctxErr world fuel i k err conn).trace.getLast? =
          some Action.waitAborted) ∨
      (c.cfg.ReconnectAttempts < maxUint bits ∧
        i + (dialLoop bits c ctxErr world fuel i k err conn).attempts =
          c.cfg.ReconnectAttempts + 1 ∧
        (retriedEvents (dialLoop bits c ctxErr world fuel i k err conn).trace).map
            (fun r => r.ReconnectAttempt) =
          List.range' i (dialLoop bits c ctxErr world fuel i k err conn).attempts ∧
        (dialLoop bits c ctxErr world fuel i k err conn).result =
          some (errorsWithMessage
            (lastErrOf err (retriedEvents (dialLoop bits c ctxErr world fuel i k err conn).trace))
            "maximum attempts exceeded") ∧
        (dialLoop bits c ctxErr world fuel i k err conn).trace.getLast? ≠
          some Action.waitAborted ∧
        (dialLoop bits c ctxErr world fuel i k err conn).trace.getLast? ≠ some Action.dial) := by
  intro fuel
  induction fuel with
  | zero => intro i k err conn _ _; left; rfl
  | succ fuel ih =>
    intro i k err conn hi hb
    rw [dialLoop]
    by_cases hle : i ≤ c.cfg.ReconnectAttempts
    · simp only [hle, if_true]
      cases hw : world k with
      | connected cn =>
        right; left
        simp
      | failed e done =>
        cases done with
        | true =>
          right; right; left
          simp [Connector.emitRetried]
        | false =>
          simp only [Bool.false_eq_true, if_false]
          have hs : uintSucc bits i ≤ i + 1 := Nat.mod_le _ _
          generalize hr : dialLoop bits c ctxErr world fuel (uintSucc bits i) (k + 1) (some e)
            none = r
          have hih := ih (uintSucc bits i) (k + 1) (some e) none (by omega) (uintSucc_lt bits i)
          rw [hr] at hih
          rcases hih with h0 | h1 | h2 | h3
          · left
            simpa [DialRun.after] using h0
          · right; left
            obtain ⟨ha, hb1, hc⟩ := h1
            refine ⟨ha, hb1, ?_⟩
            simp only [DialRun.after]
            exact getLast?_append_some _ _ _ hc
          · right; right; left
            obtain ⟨ha, hc⟩ := h2
            refine ⟨ha, ?_⟩
            simp only [DialRun.after]
            exact getLast?_append_some _ _ _ hc
          · right; right; right
            obtain ⟨hmax, hatt, hev, herr, hl1, hl2⟩ := h3
            have hmax2 := hmax
            unfold maxUint at hmax2
            have hs2 : uintSucc bits i = i + 1 := uintSucc_of_lt (by omega)
            rw [hs2] at hatt hev
            refine ⟨hmax, ?_, ?_, ?_, ?_, ?_⟩
            · simp only [DialRun.after]; omega
            · simp [DialRun.after, Connector.emitRetried, retriedEvents,
                retriedEvents_append, hev, List.range'_succ]
            · simp only [DialRun.after, Connector.emitRetried, retriedEvents,
                List.cons_append, List.nil_append, lastErrOf_cons]
              exact herr
            · cases hl : r.trace.getLast? with
              | none =>
                simp only [DialRun.after]
                rw [List.getLast?_eq_none_iff.mp hl, List.append_nil, List.getLast?_concat]
                simp
              | some a =>
                simp only [DialRun.after]
                rw [getLast?_append_some _ _ _ hl]
                rw [hl] at hl1
                exact hl1
            · cases hl : r.trace.getLast? with
              | none =>
                simp only [DialRun.after]
                rw [List.getLast?_eq_none_iff.mp hl, List.append_nil, List.getLast?_concat]
                simp
              | some a =>
                simp only [DialRun.after]
                rw [getLast?_append_some _ _ _ hl]
                rw [hl] at hl2
                exact hl2
    · simp only [hle, if_false]
      right; right; right
      refine ⟨by unfold maxUint; omega, by omega, by simp [retriedEvents], ?_, by simp,
        by simp⟩
      simp [retriedEvents, lastErrOf]

/-- A run of the dial loop, complete or not, starts with a dial call, and
whatever follows it starts with the `Retried` event that carries the loop
variable of entry. -/
theorem dialLoop_trace_head (bits : Nat) (c : Connector) (ctxErr : GoError)
    (world : Nat → DialOutcome) (fuel i k : Nat) (err : Error) (conn : Option Nat) :
    (dialLoop bits c ctxErr world fuel i k err conn).trace = [] ∨
      (dialLoop bits c ctxErr world fuel i k err conn).trace = [Action.dial] ∨
      ∃ e rest, (dialLoop bits c ctxErr world fuel i k err conn).trace =
        Action.dial :: Action.retried ⟨i, some e⟩ c.retries :: rest := by
  cases fuel with
  | zero => left; rfl
  | succ fuel =>
    rw [dialLoop]
    by_cases hle : i ≤ c.cfg.ReconnectAttempts
    · simp only [hle, if_true]
      cases hw : world k with
      | connected cn => right; left; rfl
      | failed e done =>
        cases done with
        | true =>
          right; right
          exact ⟨e, [Action.waitAborted], rfl⟩
        | false =>
          right; right
          exact ⟨e, Action.waited c.cfg.Wait ::
            (dialLoop bits c ctxErr world fuel (uintSucc bits i) (k + 1) (some e) none).trace,
            rfl⟩
    · simp only [hle, if_false]
      left; trivial

/-- Every cycle of a `DialConfig` run holds a run of `dialWithIt` of a connector
with the same configuration and listeners. -/
theorem DialConfig_cycles (bits : Nat) (w : World) :
    ∀ (fuel : Nat) (c : Connector) (n k : Nat),
      ∀ cy ∈ (DialConfig bits w fuel c n k).cycles, ∃ c1 f1 k1, c1.cfg = c.cfg ∧
        c1.retries = c.retries ∧ cy.dial = dialWithIt bits c1 w.ctxErr w.attempt f1 k1 := by
  intro fuel
  induction fuel with
  | zero => intro c n k cy hcy; simp [DialConfig] at hcy
  | succ fuel ih =>
    intro c n k cy hcy
    rw [DialConfig] at hcy
    generalize hd : dialWithIt bits c w.ctxErr w.attempt (fuel + 1) k = run at hcy
    have hsingle : ∀ live, cy ∈ [({ dial := run, live := live } : Cycle)] →
        ∃ c1 f1 k1, c1.cfg = c.cfg ∧ c1.retries = c.retries ∧
          cy.dial = dialWithIt bits c1 w.ctxErr w.attempt f1 k1 := by
      intro live h
      simp only [List.mem_singleton] at h
      subst h
      exact ⟨c, fuel + 1, k, rfl, rfl, hd.symm⟩
    cases hres : run.result with
    | none =>
      simp only [hres] at hcy
      exact hsingle _ hcy
    | some res =>
      cases res with
      | some e =>
        simp only [hres] at hcy
        exact hsingle _ hcy
      | none =>
        simp only [hres] at hcy
        cases hc : run.conn with
        | none =>
          simp only [hc] at hcy
          exact hsingle _ hcy
        | some cn =>
          simp only [hc] at hcy
          cases hl : w.live n with
          | ctxDone closeErr =>
            simp only [hl] at hcy
            split at hcy <;> exact hsingle _ hcy
          | closed amqpErr =>
            simp only [hl, ConfigRun.afterCycle, List.mem_cons] at hcy
            rcases hcy with hcy | hcy
            · subst hcy
              exact ⟨c, fuel + 1, k, rfl, rfl, hd.symm⟩
            · obtain ⟨c1, f1, k1, h1, h2, h3⟩ := ih _ _ _ cy hcy
              exact ⟨c1, f1, k1, h1, h2, h3⟩

/-! ## C1: a permanently failing dial target -/

/-- C1, as stated, fails: with the reconnect budget at the largest `uint` the
loop condition `i <= ReconnectAttempts` holds for every value of `i`, so
against a permanently failing target `dialWithIt` never returns, whatever the
number of passes it is given.  This is so for the budget `math.MaxUint64` on
a platform with a 64-bit `uint`, and for the budget that `NewConnector` stores
for a zero `ReconnectAttempts` on a platform with a 32-bit `uint`. -/
theorem dialWithIt_budget_maxUint_never_returns :
    (¬ ∃ fuel err, (dialWithIt 64 (NewConnector ⟨maxUint 64, 10⟩) (GoError.base 0)
        (refusing (fun _ => GoError.base 1)) fuel 0).result = some err) ∧
    (¬ ∃ fuel err, (dialWithIt 32 (NewConnector ⟨0, 10⟩) (GoError.base 0)
        (refusing (fun _ => GoError.base 1)) fuel 0).result = some err) := by
  constructor
  · rintro ⟨fuel, err, h⟩
    have hN : (NewConnector ⟨maxUint 64, 10⟩).cfg.ReconnectAttempts = maxUint 64 := by
      simp [NewConnector, maxUint]
    rw [dialWithIt, dialLoop_never_exits 64 _ _ _ hN fuel 1 0 none _ (by norm_num)] at h
    exact Option.noConfusion h
  · rintro ⟨fuel, err, h⟩
    have hN : (NewConnector ⟨0, 10⟩).cfg.ReconnectAttempts = maxUint 32 := by
      simp [NewConnector, maxUint, mathMaxUint32]
    rw [dialWithIt, dialLoop_never_exits 32 _ _ _ hN fuel 1 0 none _ (by norm_num)] at h
    exact Option.noConfusion h

/-- C1 (amended): for a reconnect budget `N` with `1 ≤ N` below the largest
`uint`, a dial target that fails on every attempt and a context that is never
cancelled, `dialWithIt` returns after exactly `N` dial attempts; it emits
exactly `N` `Retried` events, with attempt indices `1, ..., N` in that order,
each with the error of its attempt; and it returns the last dial error wrapped
with the message "maximum attempts exceeded". -/
theorem dialWithIt_refusing_exhausts_budget (bits : Nat) (c : Connector) (ctxErr : GoError)
    (errs : Nat → GoError) (fuel k : Nat)
    (hN : 1 ≤ c.cfg.ReconnectAttempts) (hmax : c.cfg.ReconnectAttempts < maxUint bits)
    (hfuel : c.cfg.ReconnectAttempts < fuel) :
    (dialWithIt bits c ctxErr (refusing errs) fuel k).result =
        some (some (GoError.withMessage (errs (k + c.cfg.ReconnectAttempts - 1))
          "maximum attempts exceeded")) ∧
      (dialWithIt bits c ctxErr (refusing errs) fuel k).attempts = c.cfg.ReconnectAttempts ∧
      dialsOf (dialWithIt bits c ctxErr (refusing errs) fuel k).trace =
        c.cfg.ReconnectAttempts ∧
      retriedEvents (dialWithIt bits c ctxErr (refusing errs) fuel k).trace =
        (List.range c.cfg.ReconnectAttempts).map
          (fun j => (⟨1 + j, some (errs (k + j))⟩ : Retried)) := by
  rw [dialWithIt_refusing bits c ctxErr errs fuel k hN hmax hfuel]
  refine ⟨rfl, rfl, ?_, ?_⟩
  · exact dialsOf_failedPasses c errs _ 1 k
  · exact retriedEvents_failedPasses c errs _ 1 k

/-- C1 (amended) at budget 3 on a 64-bit platform. -/
theorem dialWithIt_refusing_exhausts_budget_witness :
    (dialWithIt 64 (NewConnector ⟨3, 10⟩) (GoError.base 0)
        (refusing (fun j => GoError.base (j + 1))) 4 0).result =
        some (some (GoError.withMessage (GoError.base 3) "maximum attempts exceeded")) ∧
      (dialWithIt 64 (NewConnector ⟨3, 10⟩) (GoError.base 0)
        (refusing (fun j => GoError.base (j + 1))) 4 0).attempts = 3 ∧
      dialsOf (dialWithIt 64 (NewConnector ⟨3, 10⟩) (GoError.base 0)
        (refusing (fun j => GoError.base (j + 1))) 4 0).trace = 3 ∧
      retriedEvents (dialWithIt 64 (NewConnector ⟨3, 10⟩) (GoError.base 0)
        (refusing (fun j => GoError.base (j + 1))) 4 0).trace =
        (List.range 3).map (fun j => (⟨1 + j, some (GoError.base (0 + j + 1))⟩ : Retried)) :=
  dialWithIt_refusing_exhausts_budget 64 (NewConnector ⟨3, 10⟩) (GoError.base 0)
    (fun j => GoError.base (j + 1)) 4 0 (by decide) (by decide) (by decide)

/-! ## C3: cancellation during an inter-attempt wait -/

/-- C3: when the attempts `1, ..., i` of a dial cycle fail (`i` within the
budget), the waits after the first `i - 1` of them complete and the context is
cancelled during the wait after attempt `i`, `dialWithIt` returns the
context's error; it has made exactly `i` dial attempts and emitted exactly `i`
`Retried` events (indices `1, ..., i`), and the trace ends with the aborted
wait: nothing follows it, whatever is left of the budget. -/
theorem dialWithIt_cancelled_during_wait (bits : Nat) (c : Connector) (ctxErr : GoError)
    (world : Nat → DialOutcome) (errs : Nat → GoError) (fuel k i : Nat)
    (hi : 1 ≤ i) (hiN : i ≤ c.cfg.ReconnectAttempts)
    (hbits : c.cfg.ReconnectAttempts < 2 ^ bits)
    (hfail : ∀ j, j < i - 1 → world (k + j) = DialOutcome.failed (errs (k + j)) false)
    (hcancel : world (k + (i - 1)) = DialOutcome.failed (errs (k + (i - 1))) true)
    (hfuel : i ≤ fuel) :
    (dialWithIt bits c ctxErr world fuel k).result = some (some ctxErr) ∧
      (dialWithIt bits c ctxErr world fuel k).attempts = i ∧
      dialsOf (dialWithIt bits c ctxErr world fuel k).trace = i ∧
      retriedEvents (dialWithIt bits c ctxErr world fuel k).trace =
        (List.range i).map (fun j => (⟨1 + j, some (errs (k + j))⟩ : Retried)) ∧
      (dialWithIt bits c ctxErr world fuel k).trace.getLast? = some Action.waitAborted := by
  obtain ⟨n, rfl⟩ : ∃ n, i = n + 1 := ⟨i - 1, by omega⟩
  obtain ⟨f, rfl⟩ : ∃ f, fuel = (f + 1) + n := ⟨fuel - n - 1, by omega⟩
  simp only [Nat.add_sub_cancel] at hfail hcancel
  have hle : 1 + n ≤ c.cfg.ReconnectAttempts := by omega
  rw [dialWithIt, dialLoop_failedPasses bits c ctxErr world errs (f + 1) n 1 k none c.conn
    hfail (by omega) (by omega)]
  rw [dialLoop]
  simp only [hle, if_true, hcancel, DialRun.after]
  refine ⟨trivial, by omega, ?_, ?_, ?_⟩
  · simp [dialsOf_append, dialsOf_failedPasses, Connector.emitRetried, dialsOf]
  · simp only [retriedEvents_append, retriedEvents_failedPasses, Connector.emitRetried,
      retriedEvents, List.cons_append, List.nil_append]
    rw [List.range_succ, List.map_append]
    rfl
  · simp [Connector.emitRetried]

/-- C3 at budget 5 with the cancellation after the second failure. -/
theorem dialWithIt_cancelled_during_wait_witness :
    (dialWithIt 64 (NewConnector ⟨5, 10⟩) (GoError.base 0)
        (fun j => DialOutcome.failed (GoError.base (j + 1)) (decide (j = 1))) 2 0).result =
        some (some (GoError.base 0)) ∧
      (dialWithIt 64 (NewConnector ⟨5, 10⟩) (GoError.base 0)
        (fun j => DialOutcome.failed (GoError.base (j + 1)) (decide (j = 1))) 2 0).attempts = 2 ∧
      dialsOf (dialWithIt 64 (NewConnector ⟨5, 10⟩) (GoError.base 0)
        (fun j => DialOutcome.failed (GoError.base (j + 1)) (decide (j = 1))) 2 0).trace = 2 ∧
      retriedEvents (dialWithIt 64 (NewConnector ⟨5, 10⟩) (GoError.base 0)
        (fun j => DialOutcome.failed (GoError.base (j + 1)) (decide (j = 1))) 2 0).trace =
        (List.range 2).map (fun j => (⟨1 + j, some (GoError.base (0 + j + 1))⟩ : Retried)) ∧
      (dialWithIt 64 (NewConnector ⟨5, 10⟩) (GoError.base 0)
        (fun j => DialOutcome.failed (GoError.base (j + 1)) (decide (j = 1))) 2 0).trace.getLast? =
        some Action.waitAborted :=
  dialWithIt_cancelled_during_wait 64 (NewConnector ⟨5, 10⟩) (GoError.base 0)
    (fun j => DialOutcome.failed (GoError.base (j + 1)) (decide (j = 1)))
    (fun j => GoError.base (j + 1)) 2 0 2 (by decide) (by decide) (by decide)
    (fun j hj => by
      have h0 : j = 0 := by omega
      subst h0
      rfl)
    rfl (by decide)

/-! ## C5: the waits of the retrying dial -/

/-- C5, as stated, fails: with budget 3 and wait 10 against a permanently
failing target, `dialWithIt` completes three waits before it returns, 30 in
all and not 20, and the last step before the return is a wait.  (And with the
budget at the largest `uint` it never returns a terminal error at all.) -/
theorem dialWithIt_budget3_waits_three_times :
    (dialWithIt 64 (NewConnector ⟨3, 10⟩) (GoError.base 0)
        (refusing (fun j => GoError.base (j + 1))) 4 0).result =
        some (some (GoError.withMessage (GoError.base 3) "maximum attempts exceeded")) ∧
      waitsOf (dialWithIt 64 (NewConnector ⟨3, 10⟩) (GoError.base 0)
        (refusing (fun j => GoError.base (j + 1))) 4 0).trace = [10, 10, 10] ∧
      (waitsOf (dialWithIt 64 (NewConnector ⟨3, 10⟩) (GoError.base 0)
        (refusing (fun j => GoError.base (j + 1))) 4 0).trace).length ≠ 3 - 1 ∧
      (waitsOf (dialWithIt 64 (NewConnector ⟨3, 10⟩) (GoError.base 0)
        (refusing (fun j => GoError.base (j + 1))) 4 0).trace).sum ≠ (3 - 1) * 10 ∧
      (dialWithIt 64 (NewConnector ⟨3, 10⟩) (GoError.base 0)
        (refusing (fun j => GoError.base (j + 1))) 4 0).trace.getLast? =
        some (Action.waited 10) ∧
      (¬ ∃ fuel err, (dialWithIt 64 (NewConnector ⟨maxUint 64, 10⟩) (GoError.base 0)
        (refusing (fun j => GoError.base (j + 1))) fuel 0).result = some err) := by
  refine ⟨?_, ?_, ?_, ?_, ?_, ?_⟩
  · decide
  · decide
  · decide
  · decide
  · decide
  · rintro ⟨fuel, err, h⟩
    have hN : (NewConnector ⟨maxUint 64, 10⟩).cfg.ReconnectAttempts = maxUint 64 := by
      simp [NewConnector, maxUint]
    rw [dialWithIt, dialLoop_never_exits 64 _ _ _ hN fuel 1 0 none _ (by norm_num)] at h
    exact Option.noConfusion h

/-- C5 (amended): for a reconnect budget `N` with `1 ≤ N` below the largest
`uint`, a permanently failing dial target and a context that is never
cancelled, the retrying dial waits `W` after every failed attempt, the last
one included: it completes exactly `N` waits of `W` before it returns the
terminal error, so the total time spent waiting is `N * W`. -/
theorem dialWithIt_refusing_waits (bits : Nat) (c : Connector) (ctxErr : GoError)
    (errs : Nat → GoError) (fuel k : Nat)
    (hN : 1 ≤ c.cfg.ReconnectAttempts) (hmax : c.cfg.ReconnectAttempts < maxUint bits)
    (hfuel : c.cfg.ReconnectAttempts < fuel) :
    (dialWithIt bits c ctxErr (refusing errs) fuel k).result =
        some (some (GoError.withMessage (errs (k + c.cfg.ReconnectAttempts - 1))
          "maximum attempts exceeded")) ∧
      (dialWithIt bits c ctxErr (refusing errs) fuel k).trace =
        failedPasses c errs c.cfg.ReconnectAttempts 1 k ∧
      waitsOf (dialWithIt bits c ctxErr (refusing errs) fuel k).trace =
        List.replicate c.cfg.ReconnectAttempts c.cfg.Wait ∧
      (waitsOf (dialWithIt bits c ctxErr (refusing errs) fuel k).trace).sum =
        c.cfg.ReconnectAttempts * c.cfg.Wait ∧
      (dialWithIt bits c ctxErr (refusing errs) fuel k).trace.getLast? =
        some (Action.waited c.cfg.Wait) := by
  rw [dialWithIt_refusing bits c ctxErr errs fuel k hN hmax hfuel]
  refine ⟨rfl, rfl, ?_, ?_, ?_⟩
  · exact waitsOf_failedPasses c errs _ 1 k
  · simp [waitsOf_failedPasses]
  · obtain ⟨n, hn⟩ : ∃ n, c.cfg.ReconnectAttempts = n + 1 :=
      ⟨c.cfg.ReconnectAttempts - 1, by omega⟩
    simp only [hn]
    exact getLast?_failedPasses c errs n 1 k

/-- C5 (amended) at budget 3 and wait 10. -/
theorem dialWithIt_refusing_waits_witness :
    (dialWithIt 64 (NewConnector ⟨3, 10⟩) (GoError.base 0)
        (refusing (fun j => GoError.base (j + 1))) 4 0).result =
        some (some (GoError.withMessage (GoError.base 3) "maximum attempts exceeded")) ∧
      (dialWithIt 64 (NewConnector ⟨3, 10⟩) (GoError.base 0)
        (refusing (fun j => GoError.base (j + 1))) 4 0).trace =
        failedPasses (NewConnector ⟨3, 10⟩) (fun j => GoError.base (j + 1)) 3 1 0 ∧
      waitsOf (dialWithIt 64 (NewConnector ⟨3, 10⟩) (GoError.base 0)
        (refusing (fun j => GoError.base (j + 1))) 4 0).trace = List.replicate 3 10 ∧
      (waitsOf (dialWithIt 64 (NewConnector ⟨3, 10⟩) (GoError.base 0)
        (refusing (fun j => GoError.base (j + 1))) 4 0).trace).sum = 3 * 10 ∧
      (dialWithIt 64 (NewConnector ⟨3, 10⟩) (GoError.base 0)
        (refusing (fun j => GoError.base (j + 1))) 4 0).trace.getLast? =
        some (Action.waited 10) :=
  dialWithIt_refusing_waits 64 (NewConnector ⟨3, 10⟩) (GoError.base 0)
    (fun j => GoError.base (j + 1)) 4 0 (by decide) (by decide) (by decide)

/-! ## C6: NewConnector -/

/-- C6, as stated, fails where `uint` is 64 bits wide: for a zero
`ReconnectAttempts` the stored budget is `math.MaxUint32`, not the largest
`uint`. -/
theorem NewConnector_zero_budget_not_maxUint64 :
    (NewConnector ⟨0, 5⟩).cfg.ReconnectAttempts = 4294967295 ∧
      (NewConnector ⟨0, 5⟩).cfg.ReconnectAttempts ≠ maxUint 64 := by
  constructor <;> decide

/-- C6 (amended): `NewConnector cfg` stores as reconnect budget
`cfg.ReconnectAttempts` itself when that is non-zero and `math.MaxUint32`
(that is `2^32 - 1`, the largest `uint` only where `uint` is 32 bits wide) when
it is zero; the `Wait` duration is stored unchanged. -/
theorem NewConnector_budget (cfg : Config) :
    (NewConnector cfg).cfg.ReconnectAttempts =
        (if cfg.ReconnectAttempts = 0 then 2 ^ 32 - 1 else cfg.ReconnectAttempts) ∧
      (NewConnector cfg).cfg.Wait = cfg.Wait ∧
      maxUint 32 = 2 ^ 32 - 1 := by
  refine ⟨?_, ?_, rfl⟩ <;>
  · unfold NewConnector
    split <;> simp_all [mathMaxUint32]

/-! ## C2: the error returned on cancellation -/

/-- C2, as stated, fails on both paths.  Budget 3: when the first attempt
fails and the context is cancelled during the wait that follows,
`DialConfig` returns the context's error wrapped with "failed to dial", not
the context's error itself; and when the context is cancelled while the
connection is live and closing the connection fails with an error other than
`amqp.ErrClosed`, it returns that error, wrapped, in place of the context's
error. -/
theorem DialConfig_cancel_not_verbatim :
    (DialConfig 64 ⟨GoError.base 0, fun _ => DialOutcome.failed (GoError.base 1) true,
        fun _ => LiveOutcome.closed none⟩ 5 (NewConnector ⟨3, 10⟩) 0 0).exit =
      some (Exit.returned (some (GoError.withMessage (GoError.base 0) "failed to dial"))) ∧
    Exit.returned (some (GoError.withMessage (GoError.base 0) "failed to dial")) ≠
      Exit.returned (some (GoError.base 0)) ∧
    (DialConfig 64 ⟨GoError.base 0, fun _ => DialOutcome.connected 7,
        fun _ => LiveOutcome.ctxDone (some (GoError.base 2))⟩ 5 (NewConnector ⟨3, 10⟩) 0 0).exit =
      some (Exit.returned (some (GoError.withMessage (GoError.base 2)
        "failed to close rabbitmq connection"))) ∧
    Exit.returned (some (GoError.withMessage (GoError.base 2)
        "failed to close rabbitmq connection")) ≠ Exit.returned (some (GoError.base 0)) := by
  refine ⟨?_, ?_, ?_, ?_⟩ <;> decide

/-- C2 (amended): whenever `DialConfig` returns, look at its last dial cycle.
(a) If the cancellation was observed during an inter-attempt wait of the dial
loop (the dial run of that cycle ends in an aborted wait), `dialWithIt`
returned the context's own error, nothing followed it, and `DialConfig`
returns that error wrapped by `errors.WithMessage` with the message "failed to
dial".  (b) If the dial of that cycle returned nil leaving a connection `cn`
(a connection is live), then the return is due to the cancellation of the
context (the `select` took `ctx.Done()`), the broadcaster was stopped and
joined, `Close` was called on `cn` as the last step, and the returned error is
the context's own error, verbatim, when the close returned nil or
`amqp.ErrClosed`, and otherwise the close error wrapped with "failed to close
rabbitmq connection". -/
theorem DialConfig_cancel_error (bits : Nat) (w : World) (hbits : 0 < bits) :
    ∀ (fuel : Nat) (c : Connector) (n k : Nat) (ex : Exit),
      (DialConfig bits w fuel c n k).exit = some ex →
      ∃ cy, (DialConfig bits w fuel c n k).cycles.getLast? = some cy ∧
        (cy.dial.trace.getLast? = some Action.waitAborted →
          cy.dial.result = some (some w.ctxErr) ∧ cy.live = [] ∧
          ex = Exit.returned (some (GoError.withMessage w.ctxErr "failed to dial"))) ∧
        (∀ cn, cy.dial.result = some none → cy.dial.conn = some cn →
          ∃ closeErr,
            w.live (n + (DialConfig bits w fuel c n k).cycles.length - 1) =
              LiveOutcome.ctxDone closeErr ∧
            cy.live = [Action.broadcastStarted cn, Action.dialed c.dials,
              Action.broadcastJoined, Action.connClosed cn] ∧
            ex = Exit.returned
              (if closeErr = none ∨ closeErr = some GoError.errClosed then some w.ctxErr
               else errorsWithMessage closeErr "failed to close rabbitmq connection")) := by
  have hpow : 1 < 2 ^ bits := Nat.one_lt_two_pow (by omega)
  intro fuel
  induction fuel with
  | zero => intro c n k ex h; simp [DialConfig] at h
  | succ fuel ih =>
    intro c n k ex h
    have hout := dialLoop_outcome bits c w.ctxErr w.attempt (fuel + 1) 1 k none c.conn
      (by omega) hpow
    rw [DialConfig] at h ⊢
    rw [← dialWithIt] at hout
    generalize dialWithIt bits c w.ctxErr w.attempt (fuel + 1) k = run at h hout ⊢
    cases hres : run.result with
    | none => simp [hres] at h
    | some res =>
      cases res with
      | some e =>
        simp only [hres, Option.some.injEq] at h ⊢
        subst h
        refine ⟨_, rfl, ?_, ?_⟩
        · intro hlast
          rcases hout with h0 | h1 | h2 | h3
          · rw [h0] at hres; exact Option.noConfusion hres
          · rw [h1.1] at hres
            simp at hres
          · rw [h2.1] at hres
            simp only [Option.some.injEq] at hres
            subst hres
            exact ⟨h2.1, rfl, rfl⟩
          · exact absurd hlast h3.2.2.2.2.1
        · intro cn hr
          have hcontra : some (some e) = (some none : Option Error) := hres.symm.trans hr
          simp at hcontra
      | none =>
        have hnot : run.trace.getLast? ≠ some Action.waitAborted := by
          rcases hout with h0 | h1 | h2 | h3
          · rw [h0] at hres; exact Option.noConfusion hres
          · rw [h1.2.2]; simp
          · rw [h2.1] at hres; simp at hres
          · exact h3.2.2.2.2.1
        simp only [hres] at h ⊢
        cases hc : run.conn with
        | none =>
          simp only [hc, Option.some.injEq] at h ⊢
          subst h
          refine ⟨_, rfl, fun hlast => absurd hlast hnot, ?_⟩
          intro cn _ hcn
          exact Option.noConfusion (hc.symm.trans hcn)
        | some cn =>
          simp only [hc] at h ⊢
          cases hl : w.live n with
          | ctxDone closeErr =>
            simp only [hl] at h ⊢
            by_cases hce : closeErr ≠ none ∧ closeErr ≠ some GoError.errClosed
            · simp only [hce, true_and, ne_eq, not_false_eq_true, if_true,
                Option.some.injEq, and_self] at h ⊢
              subst h
              refine ⟨_, rfl, fun hlast => absurd hlast hnot, ?_⟩
              intro cn1 _ hcn
              have hcn1 : cn = cn1 := Option.some.inj (hc.symm.trans hcn)
              subst hcn1
              refine ⟨closeErr, ?_, rfl, ?_⟩
              · simp only [List.length_singleton, Nat.add_sub_cancel, hl]
              · have hno : ¬ (closeErr = none ∨ closeErr = some GoError.errClosed) := by
                  rintro (h1 | h1)
                  · exact hce.1 h1
                  · exact hce.2 h1
                simp only [hno, if_false]
            · have hyes : closeErr = none ∨ closeErr = some GoError.errClosed := by
                by_cases h1 : closeErr = none
                · exact Or.inl h1
                · by_cases h2 : closeErr = some GoError.errClosed
                  · exact Or.inr h2
                  · exact absurd ⟨h1, h2⟩ hce
              simp only [hce, if_false, Option.some.injEq] at h ⊢
              subst h
              refine ⟨_, rfl, fun hlast => absurd hlast hnot, ?_⟩
              intro cn1 _ hcn
              have hcn1 : cn = cn1 := Option.some.inj (hc.symm.trans hcn)
              subst hcn1
              refine ⟨closeErr, ?_, rfl, ?_⟩
              · simp only [List.length_singleton, Nat.add_sub_cancel, hl]
              · simp only [hyes, if_true]
          | closed amqpErr =>
            simp only [hl, ConfigRun.afterCycle] at h ⊢
            obtain ⟨cy, hcy, ha, hb⟩ := ih _ _ _ ex h
            refine ⟨cy, ?_, ha, ?_⟩
            · rw [List.getLast?_cons, hcy]
              rfl
            · intro cn1 hr hcn
              have hlen : 1 ≤ (DialConfig bits w fuel { c with conn := some cn } (n + 1)
                  (k + run.attempts)).cycles.length := by
                cases hcs : (DialConfig bits w fuel { c with conn := some cn } (n + 1)
                    (k + run.attempts)).cycles with
                | nil => rw [hcs] at hcy; simp at hcy
                | cons x t => simp
              obtain ⟨closeErr, hlive, hlv, hex⟩ := hb cn1 hr hcn
              have hidx : n + ((DialConfig bits w fuel { c with conn := some cn } (n + 1)
                    (k + run.attempts)).cycles.length + 1) - 1 =
                  n + 1 + (DialConfig bits w fuel { c with conn := some cn } (n + 1)
                    (k + run.attempts)).cycles.length - 1 := by
                omega
              refine ⟨closeErr, ?_, hlv, hex⟩
              simp only [List.length_cons]
              rw [hidx]
              exact hlive

/-- C2 (amended) on a run that is cancelled while the first connection, 7, is
live and whose close reports `amqp.ErrClosed`: the connection is closed and
the context's own error is returned. -/
theorem DialConfig_cancel_error_witness :
    ∃ cy closeErr, (DialConfig 64 ⟨GoError.base 0, fun _ => DialOutcome.connected 7,
          fun _ => LiveOutcome.ctxDone (some GoError.errClosed)⟩ 5 (NewConnector ⟨3, 10⟩)
          0 0).cycles.getLast? = some cy ∧
      cy.dial.result = some none ∧ cy.dial.conn = some 7 ∧
      (fun _ => LiveOutcome.ctxDone (some GoError.errClosed) : Nat → LiveOutcome)
          (0 + (DialConfig 64 ⟨GoError.base 0, fun _ => DialOutcome.connected 7,
            fun _ => LiveOutcome.ctxDone (some GoError.errClosed)⟩ 5 (NewConnector ⟨3, 10⟩)
            0 0).cycles.length - 1) = LiveOutcome.ctxDone closeErr ∧
      cy.live = [Action.broadcastStarted 7, Action.dialed [], Action.broadcastJoined,
        Action.connClosed 7] ∧
      Exit.returned (some (GoError.base 0)) = Exit.returned
        (if closeErr = none ∨ closeErr = some GoError.errClosed then some (GoError.base 0)
         else errorsWithMessage closeErr "failed to close rabbitmq connection") := by
  obtain ⟨cy, hcy, _, hb⟩ := DialConfig_cancel_error 64
    ⟨GoError.base 0, fun _ => DialOutcome.connected 7,
      fun _ => LiveOutcome.ctxDone (some GoError.errClosed)⟩ (by decide) 5
    (NewConnector ⟨3, 10⟩) 0 0 (Exit.returned (some (GoError.base 0))) (by decide)
  have hcy2 : (DialConfig 64 ⟨GoError.base 0, fun _ => DialOutcome.connected 7,
      fun _ => LiveOutcome.ctxDone (some GoError.errClosed)⟩ 5 (NewConnector ⟨3, 10⟩)
      0 0).cycles.getLast? =
      some { dial := { conn := some 7, attempts := 1, trace := [Action.dial],
                       result := some none },
             live := [Action.broadcastStarted 7, Action.dialed [], Action.broadcastJoined,
               Action.connClosed 7] } := by decide
  have hcyeq := Option.some.inj (hcy.symm.trans hcy2)
  subst hcyeq
  obtain ⟨closeErr, h1, h2, h3⟩ := hb 7 rfl rfl
  exact ⟨_, closeErr, hcy, rfl, rfl, h1, h2, h3⟩

/-! ## C4: every dial cycle counts afresh -/

/-- C4: in every run of `DialConfig`, returned or still running, every dial
cycle (the first one and each one started after a close-notification) counts
from 1: its trace starts with a dial call and, when that attempt failed, goes
on with the `Retried` event of attempt index 1; and the cycle has the full
budget `N`: it is still dialling, or it ended connected, or cancelled during a
wait, or with the "maximum attempts exceeded" error after exactly `N` attempts
whose `Retried` events carry the indices `1, ..., N`, whatever the earlier
cycles used. -/
theorem DialConfig_cycle_counts_afresh (bits : Nat) (w : World) (fuel : Nat) (c : Connector)
    (n k : Nat) (hbits : 0 < bits) :
    ∀ cy ∈ (DialConfig bits w fuel c n k).cycles,
      (cy.dial.trace = [] ∨ cy.dial.trace = [Action.dial] ∨
        ∃ e rest, cy.dial.trace = Action.dial :: Action.retried ⟨1, some e⟩ c.retries :: rest) ∧
      (cy.dial.result = none ∨ cy.dial.result = some none ∨
        (cy.dial.result = some (some w.ctxErr) ∧
          cy.dial.trace.getLast? = some Action.waitAborted) ∨
        (cy.dial.attempts = c.cfg.ReconnectAttempts ∧
          (retriedEvents cy.dial.trace).map (fun ev => ev.ReconnectAttempt) =
            List.range' 1 c.cfg.ReconnectAttempts ∧
          cy.dial.result = some (errorsWithMessage
            (lastErrOf none (retriedEvents cy.dial.trace)) "maximum attempts exceeded"))) := by
  intro cy hcy
  obtain ⟨c1, f1, k1, hcfg, hret, hrun⟩ := DialConfig_cycles bits w fuel c n k cy hcy
  have hpow : 1 < 2 ^ bits := Nat.one_lt_two_pow (by omega)
  constructor
  · have := dialLoop_trace_head bits c1 w.ctxErr w.attempt f1 1 k1 none c1.conn
    rw [hret, ← dialWithIt, ← hrun] at this
    exact this
  · have := dialLoop_outcome bits c1 w.ctxErr w.attempt f1 1 k1 none c1.conn (by omega) hpow
    rw [← dialWithIt, ← hrun] at this
    rcases this with h0 | h1 | h2 | h3
    · exact Or.inl h0
    · exact Or.inr (Or.inl h1.1)
    · exact Or.inr (Or.inr (Or.inl h2))
    · right; right; right
      obtain ⟨_, hatt, hev, herr, _, _⟩ := h3
      rw [hcfg] at hatt
      have ha : cy.dial.attempts = c.cfg.ReconnectAttempts := by omega
      refine ⟨ha, ?_, herr⟩
      rw [hev, ha]

/-- C4 on a run of two cycles at budget 3: two failures and a connection, a
close-notification, then three failures. -/
theorem DialConfig_cycle_counts_afresh_witness :
    (DialConfig 64 ⟨GoError.base 0,
          fun j => if j = 2 then DialOutcome.connected 7
            else DialOutcome.failed (GoError.base (j + 1)) false,
          fun _ => LiveOutcome.closed none⟩ 5 (NewConnector ⟨3, 10⟩) 0 0).cycles.length = 2 ∧
      ∀ cy ∈ (DialConfig 64 ⟨GoError.base 0,
          fun j => if j = 2 then DialOutcome.connected 7
            else DialOutcome.failed (GoError.base (j + 1)) false,
          fun _ => LiveOutcome.closed none⟩ 5 (NewConnector ⟨3, 10⟩) 0 0).cycles,
        (cy.dial.trace = [] ∨ cy.dial.trace = [Action.dial] ∨
          ∃ e rest, cy.dial.trace = Action.dial :: Action.retried ⟨1, some e⟩ [] :: rest) ∧
        (cy.dial.result = none ∨ cy.dial.result = some none ∨
          (cy.dial.result = some (some (GoError.base 0)) ∧
            cy.dial.trace.getLast? = some Action.waitAborted) ∨
          (cy.dial.attempts = 3 ∧
            (retriedEvents cy.dial.trace).map (fun ev => ev.ReconnectAttempt) =
              List.range' 1 3 ∧
            cy.dial.result = some (errorsWithMessage
              (lastErrOf none (retriedEvents cy.dial.trace)) "maximum attempts exceeded"))) :=
  ⟨rfl, DialConfig_cycle_counts_afresh 64 ⟨GoError.base 0,
      fun j => if j = 2 then DialOutcome.connected 7
        else DialOutcome.failed (GoError.base (j + 1)) false,
      fun _ => LiveOutcome.closed none⟩ 5 (NewConnector ⟨3, 10⟩) 0 0 (by decide)⟩

/-! ## The consumer orchestrator: lemmas -/

theorem contextDone_eq (b : Bool) : contextDone b = b := by
  cases b <;> rfl

theorem consumedOn_append (a b : List Call) :
    consumedOn (a ++ b) = consumedOn a ++ consumedOn b := by
  induction a with
  | nil => rfl
  | cons x t ih => cases x <;> simp [consumedOn, ih]

theorem declaredOn_append (a b : List Call) :
    declaredOn (a ++ b) = declaredOn a ++ declaredOn b := by
  induction a with
  | nil => rfl
  | cons x t ih => cases x <;> simp [declaredOn, ih]

theorem waitedIn_append (a b : List Call) : waitedIn (a ++ b) = waitedIn a ++ waitedIn b := by
  induction a with
  | nil => rfl
  | cons x t ih => cases x <;> simp [waitedIn, ih]

theorem closeGuarded_calls (once : Bool) (ch : Nat) (r : Error) :
    consumedOn (closeGuarded once ch r).2.1 = [] ∧ declaredOn (closeGuarded once ch r).2.1 = [] := by
  unfold closeGuarded
  cases once <;> simp [consumedOn, declaredOn]

/-- The consume goroutine calls `Consume` exactly once, on its channel, and
never `Declare`. -/
theorem consumeTask_calls (ww : WorkerWorld) (ch : Nat) (ready : ReadySignal) (once : Bool) :
    consumedOn (consumeTask ww ch ready once).calls = [ch] ∧
      declaredOn (consumeTask ww ch ready once).calls = [] := by
  unfold consumeTask
  cases ww.consume with
  | some e => simp [consumedOn, declaredOn]
  | none =>
    simp [consumedOn, declaredOn, consumedOn_append, declaredOn_append, closeGuarded_calls]

/-- The watcher goroutine calls neither `Consume` nor `Declare`. -/
theorem watcherTask_calls (ww : WorkerWorld) (ch : Nat) (once : Bool) :
    consumedOn (watcherTask ww ch once).calls = [] ∧
      declaredOn (watcherTask ww ch once).calls = [] := by
  unfold watcherTask
  cases ww.wake <;>
    simp [consumedOn, declaredOn, consumedOn_append, declaredOn_append, closeGuarded_calls]

theorem runWorker_calls (ww : WorkerWorld) (ch : Nat) (ready : ReadySignal) :
    (runWorker ww ch ready).ch = ch ∧
      consumedOn ((runWorker ww ch ready).consumeCalls ++ (runWorker ww ch ready).watchCalls) =
        [ch] ∧
      declaredOn ((runWorker ww ch ready).consumeCalls ++ (runWorker ww ch ready).watchCalls) =
        [] := by
  unfold runWorker
  cases ww.consumeClosesFirst <;>
    simp [consumedOn_append, declaredOn_append, consumeTask_calls, watcherTask_calls]

/-- When every acquisition succeeds, the worker loop starts one worker per
pass, each on the channel it just acquired, whatever the Stop goroutine does. -/
theorem spawnWorkers_all_acquired (pw : PassWorld) (chs : Nat → Nat) :
    ∀ (n i : Nat) (st : Loop),
      (∀ j, i ≤ j → j < i + n → (pw.worker j).acquire = HandOff.conn (ChannelResult.opened (chs j))) →
      (spawnWorkers pw n i st).calls = (List.range' i n).flatMap (fun j => workerStart j (chs j)) ∧
      (spawnWorkers pw n i st).tasks.map (fun t => t.ch) = (List.range' i n).map chs ∧
      consumeCallsOf (spawnWorkers pw n i st).tasks = (List.range' i n).map chs ∧
      declareCallsOf (spawnWorkers pw n i st).tasks = [] := by
  intro n
  induction n with
  | zero => intro i st _; simp [spawnWorkers, consumeCallsOf, declareCallsOf]
  | succ n ih =>
    intro i st h
    have hi := h i (Nat.le_refl i) (by omega)
    rw [spawnWorkers]
    simp only [hi, Connector.Channel]
    obtain ⟨h1, h2, h3, h4⟩ := ih (i + 1)
      { lastErr := (maybeStop pw (StopPoint.afterTracked i) st).1.lastErr,
        reconnectConsumers := (maybeStop pw (StopPoint.afterTracked i) st).1.reconnectConsumers,
        consumerChannels := (maybeStop pw (StopPoint.afterTracked i) st).1.consumerChannels.set i
          ⟨some (chs i), (pw.worker i).tag⟩,
        readyOnce := true }
      (fun j hj1 hj2 => h j (by omega) (by omega))
    have hr := runWorker_calls (pw.worker i) (chs i)
      (if (maybeStop pw (StopPoint.afterTracked i) st).1.readyOnce = true
        then ReadySignal.fresh else ReadySignal.caller)
    refine ⟨?_, ?_, ?_, ?_⟩
    · simp only [h1, List.range'_succ, List.flatMap_cons, workerStart, List.cons_append,
        List.nil_append]
    · simp only [List.map_cons, h2, hr.1, List.range'_succ]
    · simp only [consumeCallsOf, List.flatMap_cons, List.range'_succ, List.map_cons] at h3 ⊢
      rw [hr.2.1, h3]
      rfl
    · simp only [declareCallsOf, List.flatMap_cons] at h4 ⊢
      rw [hr.2.2, h4]
      rfl

theorem range_flatMap_workerStart_proj (chs : Nat → Nat) (k : Nat) :
    declaredOn ((List.range k).flatMap (fun j => workerStart j (chs j))) = [] ∧
    consumedOn ((List.range k).flatMap (fun j => workerStart j (chs j))) = [] ∧
    waitedIn ((List.range k).flatMap (fun j => workerStart j (chs j))) = [] := by
  induction k with
  | zero => simp [declaredOn, consumedOn, waitedIn]
  | succ k ih =>
    simp only [List.range_succ, List.flatMap_append, declaredOn_append, consumedOn_append,
      waitedIn_append, ih.1, ih.2.1, ih.2.2]
    simp [workerStart, declaredOn, consumedOn, waitedIn]

theorem maybeStop_of_ne (pw : PassWorld) (pt : StopPoint) (st : Loop)
    (h : pw.stop ≠ some pt) : maybeStop pw pt st = (st, none) := by
  simp [maybeStop, h]

theorem spawnWorkers_no_stop (pw : PassWorld) (hstop : pw.stop = none) :
    ∀ (n i : Nat) (st : Loop),
      (spawnWorkers pw n i st).st.reconnectConsumers = st.reconnectConsumers ∧
      (spawnWorkers pw n i st).stopCalls = none := by
  intro n
  induction n with
  | zero => intro i st; simp [spawnWorkers]
  | succ n ih =>
    intro i st
    have e : maybeStop pw (StopPoint.afterTracked i) st = (st, none) :=
      maybeStop_of_ne pw _ st (by rw [hstop]; simp)
    rw [spawnWorkers]
    cases hc : Connector.Channel (pw.worker i).acquire with
    | failed err => simp [hc, e]
    | opened ch =>
      simp only [hc, e, Option.none_or]
      exact ih (i + 1) _

theorem closeErrOr_ne_none (closeErr : Error) (e : GoError) :
    closeErrOr closeErr (some e) ≠ none := by
  unfold closeErrOr
  split_ifs with h
  · cases closeErr with
    | none => exact absurd rfl h.1
    | some c => simp [errorsWrap]
  · simp

/-- The watcher goroutine never returns nil: it returns the wrapped close
error, the error of the generation context, or the `*amqp.Error` pointer it
received, which is a non-nil `error` even when the pointer is nil. -/
theorem watcherTask_result_ne_none (ww : WorkerWorld) (ch : Nat) (once : Bool) :
    (watcherTask ww ch once).result ≠ none := by
  unfold watcherTask
  cases ww.wake <;> exact closeErrOr_ne_none _ _

theorem runWorker_watchResult_ne_none (ww : WorkerWorld) (ch : Nat) (ready : ReadySignal) :
    (runWorker ww ch ready).watchResult ≠ none := by
  unfold runWorker
  split_ifs <;> exact watcherTask_result_ne_none _ _ _

theorem spawnWorkers_watchResults (pw : PassWorld) :
    ∀ (n i : Nat) (st : Loop), ∀ t ∈ (spawnWorkers pw n i st).tasks, t.watchResult ≠ none := by
  intro n
  induction n with
  | zero => intro i st t ht; simp [spawnWorkers] at ht
  | succ n ih =>
    intro i st t ht
    rw [spawnWorkers] at ht
    cases hc : Connector.Channel (pw.worker i).acquire with
    | failed err => simp [hc] at ht
    | opened ch =>
      simp only [hc, List.mem_cons] at ht
      rcases ht with ht | ht
      · rw [ht]; exact runWorker_watchResult_ne_none _ _ _
      · exact ih _ _ t ht

theorem gWait_ne_none (results : List Error) (order : List Nat) (e : GoError)
    (h : some e ∈ results) : gWait results order ≠ none := by
  unfold gWait
  have hmem : e ∈ results.filterMap id := by
    rw [List.mem_filterMap]
    exact ⟨some e, h, rfl⟩
  intro hn
  rw [List.head?_eq_none_iff] at hn
  have : e ∈ (List.filterMap (fun j => (results.get? j).join) order ++ results.filterMap id) :=
    List.mem_append_right _ hmem
  rw [hn] at this
  simp at this

/-- A generation that started at least one worker records a non-nil result. -/
theorem gWait_taskResults_ne_none (tasks : List WorkerRun) (order : List Nat)
    (hne : tasks ≠ []) (hw : ∀ t ∈ tasks, t.watchResult ≠ none) :
    gWait (taskResults tasks) order ≠ none := by
  cases tasks with
  | nil => exact absurd rfl hne
  | cons t rest =>
    cases hr : t.watchResult with
    | none => exact absurd hr (hw t (List.mem_cons_self _ _))
    | some e =>
      apply gWait_ne_none _ _ e
      simp [taskResults, hr]


/-- One pass with Stop not received, the context not done and every channel
acquisition, `Declare` and the close of the declare channel succeeding: it
waits exactly when an error is recorded, runs a generation of `k` workers and
records a non-nil result. -/
theorem pass_healthy (cfg : Config) (ctxErr : GoError) (k : Nat) (pw : PassWorld) (st : Loop)
    (d : Nat) (chs : Nat → Nat) (hk : 1 ≤ k)
    (hf : st.reconnectConsumers = true) (hstop : pw.stop = none)
    (hctx : pw.ctxDone = false) (hwait : pw.waitCtxDone = false)
    (hd : pw.declAcquire = HandOff.conn (ChannelResult.opened d))
    (hdecl : pw.declare = none) (hclose : pw.declClose = none)
    (hacq : ∀ j, j < k → (pw.worker j).acquire = HandOff.conn (ChannelResult.opened (chs j))) :
    (pass cfg ctxErr k pw st).outcome = PassEnd.continues ∧
      (pass cfg ctxErr k pw st).st.reconnectConsumers = true ∧
      (pass cfg ctxErr k pw st).st.lastErr ≠ none ∧
      (pass cfg ctxErr k pw st).stopCalls = none ∧
      (pass cfg ctxErr k pw st).calls =
        (if st.lastErr ≠ none then [Call.waited cfg.Wait] else []) ++
          [Call.channel (ChannelResult.opened d), Call.declare d, Call.close d] ++
          (List.range k).flatMap (fun j => workerStart j (chs j)) ++ [Call.cancelCtx] ∧
      consumeCallsOf (pass cfg ctxErr k pw st).tasks = (List.range k).map chs := by
  have hne : ∀ pt, pw.stop ≠ some pt := by intro pt; rw [hstop]; simp
  have e : ∀ pt s, maybeStop pw pt s = (s, none) := fun pt s => maybeStop_of_ne pw pt s (hne pt)
  obtain ⟨c1, c2, c3, _⟩ := spawnWorkers_all_acquired pw chs k 0
    { lastErr := st.lastErr, reconnectConsumers := true,
      consumerChannels := List.replicate k ⟨none, ""⟩, readyOnce := st.readyOnce }
    (fun j _ hj => hacq j (by omega))
  rw [← List.range_eq_range'] at c1 c2 c3
  obtain ⟨n1, n2⟩ := spawnWorkers_no_stop pw hstop k 0
    { lastErr := st.lastErr, reconnectConsumers := true,
      consumerChannels := List.replicate k ⟨none, ""⟩, readyOnce := st.readyOnce }
  have hw := spawnWorkers_watchResults pw k 0
    { lastErr := st.lastErr, reconnectConsumers := true,
      consumerChannels := List.replicate k ⟨none, ""⟩, readyOnce := st.readyOnce }
  have hnonempty : (spawnWorkers pw k 0
      { lastErr := st.lastErr, reconnectConsumers := true,
        consumerChannels := List.replicate k ⟨none, ""⟩, readyOnce := st.readyOnce }).tasks ≠ [] := by
    intro h0
    rw [h0] at c2
    have := congrArg List.length c2
    simp at this
    omega
  have hg := gWait_taskResults_ne_none _ pw.order hnonempty hw
  unfold pass
  simp only [e, hf, Bool.true_eq_false, Bool.false_eq_true, if_false, contextDone_eq, hctx,
    hwait, and_false,
    hd, hdecl, hclose, Connector.Channel]
  refine ⟨trivial, n1, hg, ?_, ?_, c3⟩
  · simp [n2]
  · rw [c1]

/-- The main loop under a world in which nothing fails and nothing stops it:
it is still running after any number of passes, and every pass but the one
it was entered with waits exactly once. -/
theorem startConsumersLoop_healthy (cfg : Config) (w : ConsumersWorld) (k : Nat)
    (d : Nat → Nat) (chs : Nat → Nat → Nat) (hk : 1 ≤ k)
    (hstop : ∀ n, (w.pass n).stop = none)
    (hctx : ∀ n, (w.pass n).ctxDone = false) (hwait : ∀ n, (w.pass n).waitCtxDone = false)
    (hd : ∀ n, (w.pass n).declAcquire = HandOff.conn (ChannelResult.opened (d n)))
    (hdecl : ∀ n, (w.pass n).declare = none) (hclose : ∀ n, (w.pass n).declClose = none)
    (hacq : ∀ n j, j < k →
      ((w.pass n).worker j).acquire = HandOff.conn (ChannelResult.opened (chs n j))) :
    ∀ (fuel n : Nat) (st : Loop), st.reconnectConsumers = true →
      (startConsumersLoop cfg w k fuel n st).result = none ∧
      (startConsumersLoop cfg w k fuel n st).passes.length = fuel ∧
      ∀ m p, (startConsumersLoop cfg w k fuel n st).passes.get? m = some p →
        p.calls =
          (if m = 0 then (if st.lastErr ≠ none then [Call.waited cfg.Wait] else [])
            else [Call.waited cfg.Wait]) ++
            [Call.channel (ChannelResult.opened (d (n + m))), Call.declare (d (n + m)),
              Call.close (d (n + m))] ++
            (List.range k).flatMap (fun j => workerStart j (chs (n + m) j)) ++
            [Call.cancelCtx] ∧
        consumeCallsOf p.tasks = (List.range k).map (chs (n + m)) ∧
        p.st.lastErr ≠ none := by
  intro fuel
  induction fuel with
  | zero => intro n st _; simp [startConsumersLoop]
  | succ fuel ih =>
    intro n st hf
    obtain ⟨q1, q2, q3, _, q5, q7⟩ := pass_healthy cfg w.ctxErr k (w.pass n) st (d n) (chs n)
      hk hf (hstop n) (hctx n) (hwait n) (hd n) (hdecl n) (hclose n) (hacq n)
    obtain ⟨r1, r2, r3⟩ := ih (n + 1) _ q2
    rw [startConsumersLoop]
    simp only [q1]
    refine ⟨r1, by simp [r2], ?_⟩
    intro m p hp
    cases m with
    | zero =>
      simp only [List.get?_cons_zero, Option.some.injEq] at hp
      subst hp
      exact ⟨by simpa using q5, q7, q3⟩
    | succ m =>
      simp only [List.get?_cons_succ] at hp
      obtain ⟨s1, s3, s4⟩ := r3 m p hp
      have hidx : n + 1 + m = n + (m + 1) := by omega
      refine ⟨?_, ?_, s4⟩
      · rw [s1, hidx]
        by_cases hm : m = 0
        · simp [hm, q3]
        · simp [hm]
      · rw [s3, hidx]

/-- A pass that runs a generation in which every acquisition, `Declare` and the
close of the declare channel succeed: the calls of the main goroutine and of
the goroutines of the workers. -/
theorem pass_declare_then_consume (cfg : Config) (ctxErr : GoError) (k : Nat)
    (pw : PassWorld) (st : Loop) (d : Nat) (chs : Nat → Nat)
    (hgen : (pass cfg ctxErr k pw st).outcome = PassEnd.continues)
    (hd : pw.declAcquire = HandOff.conn (ChannelResult.opened d))
    (hdecl : pw.declare = none) (hclose : pw.declClose = none)
    (hacq : ∀ j, j < k → (pw.worker j).acquire = HandOff.conn (ChannelResult.opened (chs j))) :
    ∃ waitCalls, (waitCalls = [] ∨ waitCalls = [Call.waited cfg.Wait]) ∧
      (pass cfg ctxErr k pw st).calls =
        waitCalls ++ [Call.channel (ChannelResult.opened d), Call.declare d, Call.close d] ++
          (List.range k).flatMap (fun j => workerStart j (chs j)) ++ [Call.cancelCtx] ∧
      declaredOn (pass cfg ctxErr k pw st).calls = [d] ∧
      consumedOn (pass cfg ctxErr k pw st).calls = [] ∧
      declareCallsOf (pass cfg ctxErr k pw st).tasks = [] ∧
      consumeCallsOf (pass cfg ctxErr k pw st).tasks = (List.range k).map chs ∧
      (pass cfg ctxErr k pw st).tasks.map (fun t => t.ch) = (List.range k).map chs := by
  unfold pass at hgen ⊢
  simp only [hd, hdecl, hclose, Connector.Channel] at hgen ⊢
  split_ifs at hgen ⊢ with h1 h2 h3 h4
  all_goals
    obtain ⟨c1, c2, c3, c4⟩ := spawnWorkers_all_acquired pw chs k 0
      { (maybeStop pw StopPoint.beforeTrack
          (maybeStop pw StopPoint.afterCheck
            (maybeStop pw StopPoint.beforeCheck st).1).1).1 with
        consumerChannels := List.replicate k ⟨none, ""⟩ }
      (fun j _ hj => hacq j (by omega))
    rw [← List.range_eq_range'] at c1 c2 c3
    obtain ⟨p1, p2, _⟩ := range_flatMap_workerStart_proj chs k
  · refine ⟨[Call.waited cfg.Wait], Or.inr rfl, ?_, ?_, ?_, c4, c3, c2⟩
    · simp only [c1]
    · simp [declaredOn_append, c1, p1, declaredOn]
    · simp [consumedOn_append, c1, p2, consumedOn]
  · refine ⟨[], Or.inl rfl, ?_, ?_, ?_, c4, c3, c2⟩
    · simp only [c1]
    · simp [declaredOn_append, c1, p1, declaredOn]
    · simp [consumedOn_append, c1, p2, consumedOn]

/-- Every pass of a run of the main loop is the loop body run on the world of
that pass. -/
theorem startConsumersLoop_passes (cfg : Config) (w : ConsumersWorld) (k : Nat) :
    ∀ (fuel n : Nat) (st : Loop) (m : Nat) (p : PassRun),
      (startConsumersLoop cfg w k fuel n st).passes.get? m = some p →
      ∃ st1, p = pass cfg w.ctxErr k (w.pass (n + m)) st1 := by
  intro fuel
  induction fuel with
  | zero => intro n st m p h; simp [startConsumersLoop] at h
  | succ fuel ih =>
    intro n st m p h
    rw [startConsumersLoop] at h
    cases ho : (pass cfg w.ctxErr k (w.pass n) st).outcome with
    | returned err =>
      simp only [ho] at h
      cases m with
      | zero =>
        simp only [List.get?_cons_zero, Option.some.injEq] at h
        exact ⟨st, h.symm⟩
      | succ m => simp at h
    | continues =>
      simp only [ho] at h
      cases m with
      | zero =>
        simp only [List.get?_cons_zero, Option.some.injEq] at h
        exact ⟨st, h.symm⟩
      | succ m =>
        simp only [List.get?_cons_succ] at h
        obtain ⟨st1, h1⟩ := ih (n + 1) _ m p h
        refine ⟨st1, ?_⟩
        rw [h1, Nat.add_assoc, Nat.add_comm 1 m]

/-! ## C7: one Declare, then `k` Consume calls -/

/-- C7: in every pass `m` of a run of `startConsumers` (task with `Count = k`)
that runs a generation (the pass does not return) and in which the
acquisition of the declare channel, `Declare`, the closing of the declare
channel and the acquisition of the `k` worker channels all succeed, the main
goroutine (after the wait, if any) acquires a channel `d`, calls `Declare` on
it exactly once and closes it, and only then starts the `k` workers, each on
the channel it acquires for it; the goroutines of the workers call `Declare`
never and `Consume` exactly `k` times, worker `j` on its own channel `chs j`,
so no `Consume` call precedes the return of `Declare`. -/
theorem generation_declare_then_consume (cfg : Config) (w : ConsumersWorld) (k fuel m : Nat)
    (p : PassRun) (d : Nat) (chs : Nat → Nat)
    (hp : (startConsumers cfg w k fuel).passes.get? m = some p)
    (hgen : p.outcome = PassEnd.continues)
    (hd : (w.pass m).declAcquire = HandOff.conn (ChannelResult.opened d))
    (hdecl : (w.pass m).declare = none) (hclose : (w.pass m).declClose = none)
    (hacq : ∀ j, j < k →
      ((w.pass m).worker j).acquire = HandOff.conn (ChannelResult.opened (chs j))) :
    ∃ waitCalls, (waitCalls = [] ∨ waitCalls = [Call.waited cfg.Wait]) ∧
      p.calls =
        waitCalls ++ [Call.channel (ChannelResult.opened d), Call.declare d, Call.close d] ++
          (List.range k).flatMap (fun j => workerStart j (chs j)) ++ [Call.cancelCtx] ∧
      declaredOn p.calls = [d] ∧
      consumedOn p.calls = [] ∧
      declareCallsOf p.tasks = [] ∧
      consumeCallsOf p.tasks = (List.range k).map chs ∧
      p.tasks.map (fun t => t.ch) = (List.range k).map chs := by
  obtain ⟨st1, h1⟩ := startConsumersLoop_passes cfg w k fuel 0 Loop.init m p hp
  rw [Nat.zero_add] at h1
  subst h1
  exact pass_declare_then_consume cfg w.ctxErr k (w.pass m) st1 d chs hgen hd hdecl hclose hacq

/-- C7 on the second pass of a run with two workers. -/
theorem generation_declare_then_consume_witness :
    ∃ p, (startConsumers ⟨3, 10⟩ (sampleWorld none) 2 2).passes.get? 1 = some p ∧
      ∃ waitCalls, (waitCalls = [] ∨ waitCalls = [Call.waited 10]) ∧
        p.calls =
          waitCalls ++ [Call.channel (ChannelResult.opened 1), Call.declare 1, Call.close 1] ++
            (List.range 2).flatMap (fun j => workerStart j (10 + j)) ++ [Call.cancelCtx] ∧
        declaredOn p.calls = [1] ∧
        consumedOn p.calls = [] ∧
        declareCallsOf p.tasks = [] ∧
        consumeCallsOf p.tasks = (List.range 2).map (fun j => 10 + j) ∧
        p.tasks.map (fun t => t.ch) = (List.range 2).map (fun j => 10 + j) :=
  ⟨_, rfl, generation_declare_then_consume ⟨3, 10⟩ (sampleWorld none) 2 2 1 _ 1
    (fun j => 10 + j) rfl rfl rfl rfl rfl (fun _ _ => rfl)⟩

/-! ## The pass in which the Stop signal is received -/

/-- C9, as stated, fails at the check that opens a pass: with the context done
before the first pass `startConsumers` returns nil, and with the context done
after a generation whose `Declare` failed it returns that generation's error
("failed to declare consumer"), not the context's error. -/
theorem startConsumers_cancel_returns_lastErr :
    (startConsumers ⟨3, 10⟩ cancelledWorld 2 5).result = some none ∧
    (startConsumers ⟨3, 10⟩ declareFailsWorld 2 5).result =
      some (some (GoError.withMessage (GoError.base 7) "failed to declare consumer")) ∧
    (startConsumers ⟨3, 10⟩ declareFailsWorld 2 5).result ≠ some (some declareFailsWorld.ctxErr) := by
  refine ⟨?_, ?_, ?_⟩ <;> decide

/-- C9 (amended): whenever `startConsumers` stops because the task's context is
cancelled, it aborts at once (the pass makes no call); when it observes the
cancellation during the wait that precedes a restart it returns the context's
own error, verbatim; when it observes it at the check that opens a pass it
returns the error recorded at that moment (`lastErr`: in a pass in which the
Stop goroutine does not interfere, the result of the previous generation, nil
when there was none), not the context's error. -/
theorem startConsumers_cancel_result (cfg : Config) (w : ConsumersWorld) (k fuel n : Nat)
    (st : Loop) (hf : st.reconnectConsumers = true)
    (hstop : (w.pass n).stop ≠ some StopPoint.beforeCheck) :
    ((w.pass n).ctxDone = true →
      (startConsumersLoop cfg w k (fuel + 1) n st).result =
        some (maybeStop (w.pass n) StopPoint.afterCheck st).1.lastErr ∧
      (startConsumersLoop cfg w k (fuel + 1) n st).passes.map (fun p => (p.calls, p.tasks)) =
        [([], [])]) ∧
    ((w.pass n).ctxDone = false →
      (maybeStop (w.pass n) StopPoint.afterCheck st).1.lastErr ≠ none →
      (w.pass n).waitCtxDone = true →
      (startConsumersLoop cfg w k (fuel + 1) n st).result = some (some w.ctxErr) ∧
      (startConsumersLoop cfg w k (fuel + 1) n st).passes.map (fun p => (p.calls, p.tasks)) =
        [([Call.waitAborted], [])]) ∧
    ((w.pass n).stop ≠ some StopPoint.afterCheck →
      (maybeStop (w.pass n) StopPoint.afterCheck st).1.lastErr = st.lastErr) := by
  have e1 : maybeStop (w.pass n) StopPoint.beforeCheck st = (st, none) :=
    maybeStop_of_ne _ _ st hstop
  refine ⟨?_, ?_, ?_⟩
  · intro hctx
    rw [startConsumersLoop]
    unfold pass
    simp [e1, hf, contextDone_eq, hctx]
  · intro hctx hl hwait
    rw [startConsumersLoop]
    unfold pass
    simp [e1, hf, contextDone_eq, hctx, hl, hwait]
  · intro h
    rw [maybeStop_of_ne _ _ st h]

/-- C9 (amended) on a run whose context is done during the wait after a failed
generation. -/
theorem startConsumers_cancel_result_witness :
    (startConsumersLoop ⟨3, 10⟩ cancelledInWaitWorld 2 (0 + 1) 1
        ⟨some (GoError.withMessage (GoError.base 7) "failed to declare consumer"), true, [],
          false⟩).result = some (some (GoError.base 0)) :=
  ((startConsumers_cancel_result ⟨3, 10⟩ cancelledInWaitWorld 2 0 1
      ⟨some (GoError.withMessage (GoError.base 7) "failed to declare consumer"), true, [], false⟩
      rfl (by decide)).2.1 rfl (by decide) rfl).1

/-! ## C10: a consumer that returns at once -/

/-- C10: with Stop never received, the context never done and every channel
acquisition, every `Declare` and every close of a declare channel succeeding,
and `Count = k ≥ 1`, `startConsumers` runs generation after generation and
never returns: after any number `fuel` of passes it is still running, every
pass is a generation (one `Declare`, `k` `Consume` calls), the first pass
makes no wait, every later pass makes exactly one wait of the configured
interval, before it acquires the declare channel, and every generation
records a non-nil result.  (This holds whatever `Consume` returns: the
watcher of a worker never returns nil.) -/
theorem startConsumers_restarts_with_one_wait (cfg : Config) (w : ConsumersWorld) (k : Nat)
    (d : Nat → Nat) (chs : Nat → Nat → Nat) (fuel : Nat) (hk : 1 ≤ k)
    (hstop : ∀ n, (w.pass n).stop = none)
    (hctx : ∀ n, (w.pass n).ctxDone = false) (hwait : ∀ n, (w.pass n).waitCtxDone = false)
    (hd : ∀ n, (w.pass n).declAcquire = HandOff.conn (ChannelResult.opened (d n)))
    (hdecl : ∀ n, (w.pass n).declare = none) (hclose : ∀ n, (w.pass n).declClose = none)
    (hacq : ∀ n j, j < k →
      ((w.pass n).worker j).acquire = HandOff.conn (ChannelResult.opened (chs n j))) :
    (startConsumers cfg w k fuel).result = none ∧
      (startConsumers cfg w k fuel).passes.length = fuel ∧
      ∀ m p, (startConsumers cfg w k fuel).passes.get? m = some p →
        p.calls =
          (if m = 0 then [] else [Call.waited cfg.Wait]) ++
            [Call.channel (ChannelResult.opened (d m)), Call.declare (d m), Call.close (d m)] ++
            (List.range k).flatMap (fun j => workerStart j (chs m j)) ++ [Call.cancelCtx] ∧
        waitedIn p.calls = (if m = 0 then [] else [cfg.Wait]) ∧
        consumeCallsOf p.tasks = (List.range k).map (chs m) ∧
        p.st.lastErr ≠ none := by
  obtain ⟨h1, h2, h3⟩ := startConsumersLoop_healthy cfg w k d chs hk hstop hctx hwait hd hdecl
    hclose hacq fuel 0 Loop.init rfl
  refine ⟨h1, h2, ?_⟩
  intro m p hp
  obtain ⟨a1, a3, a4⟩ := h3 m p hp
  rw [Nat.zero_add] at a1 a3
  have hcalls : p.calls =
      (if m = 0 then [] else [Call.waited cfg.Wait]) ++
        [Call.channel (ChannelResult.opened (d m)), Call.declare (d m), Call.close (d m)] ++
        (List.range k).flatMap (fun j => workerStart j (chs m j)) ++ [Call.cancelCtx] := by
    rw [a1]
    by_cases hm : m = 0
    · simp [hm, Loop.init]
    · simp [hm]
  refine ⟨hcalls, ?_, a3, a4⟩
  rw [hcalls]
  simp only [waitedIn_append, (range_flatMap_workerStart_proj (chs m) k).2.2]
  by_cases hm : m = 0
  · simp [hm, waitedIn]
  · simp [hm, waitedIn]

/-- C10 with `Count = 2` over three passes. -/
theorem startConsumers_restarts_with_one_wait_witness :
    (startConsumers ⟨3, 10⟩ (sampleWorld none) 2 3).result = none ∧
      (startConsumers ⟨3, 10⟩ (sampleWorld none) 2 3).passes.length = 3 ∧
      ∀ m p, (startConsumers ⟨3, 10⟩ (sampleWorld none) 2 3).passes.get? m = some p →
        p.calls =
          (if m = 0 then [] else [Call.waited 10]) ++
            [Call.channel (ChannelResult.opened 1), Call.declare 1, Call.close 1] ++
            (List.range 2).flatMap (fun j => workerStart j (10 + j)) ++ [Call.cancelCtx] ∧
        waitedIn p.calls = (if m = 0 then [] else [10]) ∧
        consumeCallsOf p.tasks = (List.range 2).map (fun j => 10 + j) ∧
        p.st.lastErr ≠ none :=
  startConsumers_restarts_with_one_wait ⟨3, 10⟩ (sampleWorld none) 2 (fun _ => 1)
    (fun _ j => 10 + j) 3 (by decide)
    (fun n => by simp [sampleWorld, samplePass])
    (fun _ => rfl) (fun _ => rfl) (fun _ => rfl) (fun _ => rfl) (fun _ => rfl)
    (fun _ _ _ => rfl)

/-! ## The close guard of a worker: lemmas -/

theorem closedOn_append (a b : List Call) : closedOn (a ++ b) = closedOn a ++ closedOn b := by
  induction a with
  | nil => rfl
  | cons x t ih => cases x <;> simp [closedOn, ih]

/-- Method `Do` of the close guard: the guard is set afterwards, and `Close` is
called exactly when it was not set before. -/
theorem closeGuarded_spec (once : Bool) (ch : Nat) (r : Error) :
    (closeGuarded once ch r).1 = true ∧
      closedOn (closeGuarded once ch r).2.1 = (if once = true then [] else [ch]) := by
  cases once <;> simp [closeGuarded, closedOn]

/-- The consume goroutine reaches the close guard only when `Consume` returned
nil; it then closes the channel exactly when the guard was not set. -/
theorem consumeTask_closes (ww : WorkerWorld) (ch : Nat) (ready : ReadySignal) (once : Bool) :
    (consumeTask ww ch ready once).once = (if ww.consume = none then true else once) ∧
      closedOn (consumeTask ww ch ready once).calls =
        (if ww.consume = none ∧ once = false then [ch] else []) := by
  unfold consumeTask closeGuarded
  cases hc : ww.consume <;> cases once <;> simp [closedOn, closedOn_append]

/-- The watcher goroutine always reaches the close guard; it closes the channel
exactly when the guard was not set. -/
theorem watcherTask_closes (ww : WorkerWorld) (ch : Nat) (once : Bool) :
    (watcherTask ww ch once).once = true ∧
      closedOn (watcherTask ww ch once).calls = (if once = true then [] else [ch]) := by
  unfold watcherTask
  obtain ⟨g1, g2⟩ := closeGuarded_spec once ch ww.close
  refine ⟨g1, ?_⟩
  cases ww.wake <;> simp [closedOn, closedOn_append, g2]

/-- The two goroutines of a worker together call `Close` on its channel exactly
once: the consume goroutine when `Consume` returned nil and it reached the
guard first, the watcher in every other case. -/
theorem runWorker_closes (ww : WorkerWorld) (ch : Nat) (ready : ReadySignal) :
    (runWorker ww ch ready).ch = ch ∧
      closedOn (runWorker ww ch ready).consumeCalls =
        (if ww.consume = none ∧ ww.consumeClosesFirst = true then [ch] else []) ∧
      closedOn (runWorker ww ch ready).watchCalls =
        (if ww.consume = none ∧ ww.consumeClosesFirst = true then [] else [ch]) := by
  unfold runWorker
  cases hf : ww.consumeClosesFirst with
  | true =>
    obtain ⟨a1, a2⟩ := consumeTask_closes ww ch ready false
    obtain ⟨_, b2⟩ := watcherTask_closes ww ch (consumeTask ww ch ready false).once
    simp only [if_true]
    refine ⟨trivial, ?_, ?_⟩
    · rw [a2]
      cases hc : ww.consume <;> simp
    · rw [b2, a1]
      cases hc : ww.consume <;> simp
  | false =>
    obtain ⟨b1, b2⟩ := watcherTask_closes ww ch false
    obtain ⟨_, a2⟩ := consumeTask_closes ww ch ready (watcherTask ww ch false).once
    simp only [Bool.false_eq_true, if_false]
    refine ⟨trivial, ?_, ?_⟩
    · rw [a2, b1]
      simp
    · rw [b2]
      simp

/-- The `j`-th worker that the worker loop starts from loop variable `i` is the
pair of goroutines of `runWorker` under the answers of the world for worker
`i + j`. -/
theorem spawnWorkers_tasks_get (pw : PassWorld) :
    ∀ (n i : Nat) (st : Loop) (j : Nat) (t : WorkerRun),
      (spawnWorkers pw n i st).tasks.get? j = some t →
      ∃ ready, t = runWorker (pw.worker (i + j)) t.ch ready := by
  intro n
  induction n with
  | zero => intro i st j t ht; simp [spawnWorkers] at ht
  | succ n ih =>
    intro i st j t ht
    rw [spawnWorkers] at ht
    cases hc : Connector.Channel (pw.worker i).acquire with
    | failed err => simp [hc] at ht
    | opened ch =>
      simp only [hc] at ht
      cases j with
      | zero =>
        simp only [List.get?_cons_zero, Option.some.injEq] at ht
        refine ⟨if (maybeStop pw (StopPoint.afterTracked i) st).1.readyOnce = true
          then ReadySignal.fresh else ReadySignal.caller, ?_⟩
        rw [← ht, (runWorker_closes _ _ _).1]
        rfl
      | succ j =>
        simp only [List.get?_cons_succ] at ht
        obtain ⟨ready, h⟩ := ih _ _ j t ht
        refine ⟨ready, ?_⟩
        rw [show i + (j + 1) = i + 1 + j by omega]
        exact h

/-- The `j`-th worker of a pass is the pair of goroutines of `runWorker` under
the answers of the world for worker `j` of that pass. -/
theorem pass_tasks_get (cfg : Config) (ctxErr : GoError) (k : Nat) (pw : PassWorld) (st : Loop)
    (j : Nat) (t : WorkerRun) (ht : (pass cfg ctxErr k pw st).tasks.get? j = some t) :
    ∃ ready, t = runWorker (pw.worker j) t.ch ready := by
  unfold pass at ht
  cases hA : Connector.Channel pw.declAcquire <;> cases hB : pw.declare <;>
    cases hC : pw.declClose <;> simp only [hA, hB, hC] at ht <;> split_ifs at ht <;>
    first
      | (simp at ht; done)
      | (obtain ⟨ready, h⟩ := spawnWorkers_tasks_get pw _ _ _ j t ht
         rw [Nat.zero_add] at h
         exact ⟨ready, h⟩)

/-- The worker loop itself calls neither `Close` on a channel nor `Declare`. -/
theorem spawnWorkers_main_calls (pw : PassWorld) :
    ∀ (n i : Nat) (st : Loop),
      closedOn (spawnWorkers pw n i st).calls = [] ∧
      declaredOn (spawnWorkers pw n i st).calls = [] := by
  intro n
  induction n with
  | zero => intro i st; simp [spawnWorkers, closedOn, declaredOn]
  | succ n ih =>
    intro i st
    rw [spawnWorkers]
    cases hc : Connector.Channel (pw.worker i).acquire with
    | failed err =>
      simp only [hc, ReopenConn]
      cases (pw.worker i).idSpace <;> cases (pw.worker i).reopenClose <;>
        simp [closedOn, declaredOn]
    | opened ch =>
      simp only [hc, closedOn, declaredOn]
      exact ih _ _

/-- The main goroutine of a pass calls `Close` on no channel but the one it
called `Declare` on. -/
theorem pass_main_closes (cfg : Config) (ctxErr : GoError) (k : Nat) (pw : PassWorld)
    (st : Loop) :
    closedOn (pass cfg ctxErr k pw st).calls = [] ∨
      closedOn (pass cfg ctxErr k pw st).calls = declaredOn (pass cfg ctxErr k pw st).calls := by
  unfold pass
  cases hA : Connector.Channel pw.declAcquire <;> cases hB : pw.declare <;>
    cases hC : pw.declClose <;> simp only [hA, hB, hC] <;> split_ifs <;>
    simp [closedOn, declaredOn, closedOn_append, declaredOn_append,
      (spawnWorkers_main_calls pw _ _ _).1, (spawnWorkers_main_calls pw _ _ _).2]

/-! ## C11: the channel of a worker is closed exactly once -/

/-- C11: for every worker `j` of every pass `m` of a run of `startConsumers`,
whatever `Consume` returns (nil or an error) and whichever of the consume
goroutine and the watcher goroutine reaches the close guard first, by the
time both goroutines have finished `Close` has been called on the worker's
channel exactly once, never zero times and never twice: by the consume
goroutine when `Consume` returned nil and it reached the guard first, and by
the watcher in every other case.  The main goroutine of the pass closes no
channel but the one it called `Declare` on. -/
theorem worker_channel_closed_exactly_once (cfg : Config) (w : ConsumersWorld)
    (k fuel m j : Nat) (p : PassRun) (t : WorkerRun)
    (hp : (startConsumers cfg w k fuel).passes.get? m = some p)
    (ht : p.tasks.get? j = some t) :
    closedOn (t.consumeCalls ++ t.watchCalls) = [t.ch] ∧
      (closedOn t.consumeCalls).length + (closedOn t.watchCalls).length = 1 ∧
      closedOn t.consumeCalls =
        (if ((w.pass m).worker j).consume = none ∧
            ((w.pass m).worker j).consumeClosesFirst = true then [t.ch] else []) ∧
      closedOn t.watchCalls =
        (if ((w.pass m).worker j).consume = none ∧
            ((w.pass m).worker j).consumeClosesFirst = true then [] else [t.ch]) ∧
      (closedOn p.calls = [] ∨ closedOn p.calls = declaredOn p.calls) := by
  obtain ⟨st1, h1⟩ := startConsumersLoop_passes cfg w k fuel 0 Loop.init m p hp
  rw [Nat.zero_add] at h1
  subst h1
  obtain ⟨ready, h2⟩ := pass_tasks_get cfg w.ctxErr k (w.pass m) st1 j t ht
  obtain ⟨_, c1, c2⟩ := runWorker_closes ((w.pass m).worker j) t.ch ready
  rw [← h2] at c1 c2
  refine ⟨?_, ?_, c1, c2, pass_main_closes cfg w.ctxErr k (w.pass m) st1⟩
  · rw [closedOn_append, c1, c2]
    split_ifs <;> rfl
  · rw [c1, c2]
    split_ifs <;> rfl

/-- C11 on the second worker of the second pass of a run in which every
`Consume` call fails: the watcher closes the channel, once. -/
theorem worker_channel_closed_exactly_once_witness :
    ∃ p t, (startConsumers ⟨3, 10⟩ failingConsumeWorld 2 2).passes.get? 1 = some p ∧
      p.tasks.get? 1 = some t ∧
      closedOn (t.consumeCalls ++ t.watchCalls) = [t.ch] ∧
      (closedOn t.consumeCalls).length + (closedOn t.watchCalls).length = 1 ∧
      closedOn t.consumeCalls =
        (if ((failingConsumeWorld.pass 1).worker 1).consume = none ∧
            ((failingConsumeWorld.pass 1).worker 1).consumeClosesFirst = true
          then [t.ch] else []) ∧
      closedOn t.watchCalls =
        (if ((failingConsumeWorld.pass 1).worker 1).consume = none ∧
            ((failingConsumeWorld.pass 1).worker 1).consumeClosesFirst = true
          then [] else [t.ch]) ∧
      (closedOn p.calls = [] ∨ closedOn p.calls = declaredOn p.calls) :=
  ⟨_, _, rfl, rfl, worker_channel_closed_exactly_once ⟨3, 10⟩ failingConsumeWorld 2 2 1 1 _ _
    rfl rfl⟩

end Darkrmq
